import Mathlib

/-!
Verification of the oracle-sentinel decision/tracking/self-tuning core.

This file gives a shallow embedding of the decision engine
(scripts/ai_brain.py `_force_recommendation`, in the dynamic-threshold form
installed by scripts/patch_ai_brain.py, together with
scripts/agent_config_loader.py), the prediction ledger
(scripts/accuracy_tracker.py, scripts/auto_resolver.py,
scripts/reanalysis_scheduler.py, scripts/whale_trades_monitor.py), the
accuracy aggregator (scripts/self_awareness.py) and the diagnosis /
improvement loop (scripts/self_diagnosis.py, scripts/self_improvement.py),
and proves or refutes the stated properties of those components.

Probabilities, prices and edges are modelled as rationals; database rows
become Lean structures with `Option` fields for nullable columns.
-/

namespace OracleSentinel

/-- Confidence label attached to a probability estimate. -/
inductive Confidence
  | low
  | medium
  | high
deriving DecidableEq, Repr

/-- A recommendation produced by the decision engine (and, for BUY_YES /
BUY_NO, the stored `signal_type` of a tracked prediction). -/
inductive Signal
  | skip
  | noTrade
  | buyYes
  | buyNo
deriving DecidableEq, Repr

/-- A terminal market resolution. -/
inductive Resolution
  | yes
  | no
deriving DecidableEq, Repr

/-! ## Decision engine

`agent_config_loader.AgentConfig.apply_dampening` and the patched
`AIBrain._force_recommendation`.  In the repository, `ai_brain.py` is in the
half-patched state left by `patch_ai_brain.py`: the rule chain already uses
the dynamic `min_edge_threshold`, while the header that loads it from the
agent config (and applies dampening) is given verbatim inside
`patch_ai_brain.py`.  We embed the function with the threshold and the
dampening factor as explicit parameters, exactly as the patched header
supplies them from the configuration. -/

/-- `AgentConfig.apply_dampening`: move a probability toward 0.5 by the
dampening factor; dampening `≤ 0` is a no-op. -/
def apply_dampening (dampening probability : ℚ) : ℚ :=
  if dampening ≤ 0 then probability
  else probability + (1/2 - probability) * dampening

/-- The probability actually used by `_force_recommendation`: dampening is
applied only when the configured factor is positive. -/
def dampenedProb (probability_dampening ai_prob : ℚ) : ℚ :=
  if 0 < probability_dampening then apply_dampening probability_dampening ai_prob
  else ai_prob

/-- The `edge` variable of `_force_recommendation`:
`(ai_prob - market_yes_price) * 100`, in percentage points. -/
def forced_edge (probability market_yes_price probability_dampening : ℚ) : ℚ :=
  (dampenedProb probability_dampening probability - market_yes_price) * 100

/-- `AIBrain._force_recommendation` rule chain (ai_brain.py lines 631-663),
first match wins:
1. LOW confidence → SKIP;
2. price > 0.97 or < 0.03 → NO_TRADE;
3. price in [0.45, 0.55] → NO_TRADE;
4. |edge| ≥ 2·threshold and HIGH → BUY_YES / BUY_NO by sign;
5. |edge| ≥ threshold and HIGH → BUY_YES / BUY_NO by sign;
6. |edge| < threshold → NO_TRADE;
7. MEDIUM → NO_TRADE; otherwise NO_TRADE. -/
def force_recommendation (probability : ℚ) (confidence : Confidence)
    (market_yes_price min_edge_threshold probability_dampening : ℚ) : Signal :=
  let edge := forced_edge probability market_yes_price probability_dampening
  if confidence = Confidence.low then Signal.skip
  else if market_yes_price > 97/100 ∨ market_yes_price < 3/100 then Signal.noTrade
  else if 45/100 ≤ market_yes_price ∧ market_yes_price ≤ 55/100 then Signal.noTrade
  else if |edge| ≥ min_edge_threshold * 2 ∧ confidence = Confidence.high then
    if 0 < edge then Signal.buyYes else Signal.buyNo
  else if |edge| ≥ min_edge_threshold ∧ confidence = Confidence.high then
    if 0 < edge then Signal.buyYes else Signal.buyNo
  else if |edge| < min_edge_threshold then Signal.noTrade
  else if confidence = Confidence.medium then Signal.noTrade
  else Signal.noTrade

/-- `AgentConfig.get_confidence_multiplier`: category-specific multiplier,
defaulting to 1. -/
def get_confidence_multiplier (multipliers : List (String × ℚ)) (category : String) : ℚ :=
  (multipliers.lookup category).getD 1

/-- `AgentConfig.should_signal`: compare |edge| against
`min_edge_threshold / multiplier` for the category (when a nonempty category
is given and its multiplier is positive).  This function is defined in
`agent_config_loader.py` but is never invoked by the decision path. -/
def should_signal (min_edge_threshold : ℚ) (multipliers : List (String × ℚ))
    (category : Option String) (edge : ℚ) : Bool :=
  let threshold :=
    match category with
    | none => min_edge_threshold
    | some c =>
      if c = "" then min_edge_threshold
      else
        let m := get_confidence_multiplier multipliers c
        if 0 < m then min_edge_threshold / m else min_edge_threshold
  decide (|edge| ≥ threshold)

/-! ### C1: threshold-rule example at market price 0.55 -/

/-- Helper: the decision at adjusted probability 0.70, HIGH confidence,
market price 0.55, threshold 5 is NO_TRADE (the coin-flip-zone rule fires). -/
lemma force_rec_at_055 :
    force_recommendation (7/10) Confidence.high (55/100) 5 0 = Signal.noTrade := by
  simp only [force_recommendation]
  norm_num
  exact fun h => absurd h (by decide)

/-- C1 counterexample: with adjusted probability 0.70, HIGH confidence,
market price 0.55 and edge threshold 5, the decision engine returns
NO_TRADE, not BUY_YES — the coin-flip-zone rule `[0.45, 0.55]` fires before
the 2×-threshold rule. -/
theorem c1_counterexample :
    force_recommendation (7/10) Confidence.high (55/100) 5 0 = Signal.noTrade ∧
    force_recommendation (7/10) Confidence.high (55/100) 5 0 ≠ Signal.buyYes := by
  refine ⟨force_rec_at_055, ?_⟩
  rw [force_rec_at_055]
  exact fun h => Signal.noConfusion h

/-- C1 (amended): with adjusted probability 0.70, HIGH confidence, market
price 0.55 and edge threshold 5, the computed edge is 15 percentage points
but the returned recommendation is NO_TRADE, because the coin-flip-zone rule
(market price within [0.45, 0.55]) has higher precedence than the
2×-threshold rule and 0.55 lies inside the zone. -/
theorem c1_amended :
    forced_edge (7/10) (55/100) 0 = 15 ∧
    force_recommendation (7/10) Confidence.high (55/100) 5 0 = Signal.noTrade := by
  refine ⟨?_, force_rec_at_055⟩
  norm_num [forced_edge, dampenedProb, apply_dampening]

/-! ### C3: the category multiplier and the effective threshold -/

/-- C3 counterexample: for the category "crypto" with multiplier 0.5
(so the claimed effective threshold is 5 / 0.5 = 10), probability 0.77 at
market price 0.70 gives edge 7, which `should_signal` rejects; yet the
decision engine, which compares |edge| against `min_edge_threshold` itself
(the multiplier is never consulted), returns BUY_YES, not NO_TRADE. -/
theorem c3_counterexample :
    should_signal 5 [("crypto", 1/2)] (some "crypto") (forced_edge (77/100) (70/100) 0)
      = false ∧
    force_recommendation (77/100) Confidence.high (70/100) 5 0 = Signal.buyYes ∧
    force_recommendation (77/100) Confidence.high (70/100) 5 0 ≠ Signal.noTrade := by
  have hedge : forced_edge (77/100) (70/100) 0 = 7 := by
    norm_num [forced_edge, dampenedProb, apply_dampening]
  have habs : |(7:ℚ)| = 7 := abs_of_nonneg (by norm_num)
  have hrec : force_recommendation (77/100) Confidence.high (70/100) 5 0 = Signal.buyYes := by
    simp only [force_recommendation, hedge, habs]
    norm_num
    exact fun h => absurd h (by decide)
  refine ⟨?_, hrec, ?_⟩
  · rw [hedge]
    simp only [should_signal, get_confidence_multiplier, List.lookup, habs]
    rw [if_neg (by decide : ¬ ("crypto" = ""))]
    norm_num
  · rw [hrec]
    exact fun h => Signal.noConfusion h

/-- C3 (amended): the decision engine compares the absolute edge against
`min_edge_threshold` directly; no category multiplier is involved in the
decision path (the division by the multiplier exists only in
`AgentConfig.should_signal`, which nothing calls).  Outside the near-resolved
and coin-flip price zones, with HIGH confidence, |edge| ≥ threshold yields a
BUY in the direction of the edge and |edge| < threshold yields NO_TRADE,
whatever any multiplier map says. -/
theorem c3_amended (p price thr d : ℚ)
    (hz1 : ¬ (price > 97/100 ∨ price < 3/100))
    (hz2 : ¬ (45/100 ≤ price ∧ price ≤ 55/100)) :
    (thr ≤ |forced_edge p price d| →
      force_recommendation p Confidence.high price thr d =
        (if 0 < forced_edge p price d then Signal.buyYes else Signal.buyNo)) ∧
    (|forced_edge p price d| < thr →
      force_recommendation p Confidence.high price thr d = Signal.noTrade) := by
  constructor
  · intro he
    simp only [force_recommendation]
    by_cases h2 : thr * 2 ≤ |forced_edge p price d|
    · simp [hz1, hz2, h2]
    · simp [hz1, hz2, h2, he]
  · intro hlt
    have h1 : ¬ thr ≤ |forced_edge p price d| := not_le.mpr hlt
    have h2 : ¬ thr * 2 ≤ |forced_edge p price d| := by
      intro h
      have h0 : (0:ℚ) ≤ |forced_edge p price d| := abs_nonneg _
      nlinarith
    simp only [force_recommendation]
    simp [hz1, hz2, h1, h2, hlt]

/-- C3 witness: instantiating the amended theorem at probability 0.77,
price 0.70, threshold 5, dampening 0 (edge 7): the BUY branch applies. -/
theorem c3_amended_witness :
    force_recommendation (77/100) Confidence.high (70/100) 5 0 =
      (if 0 < forced_edge (77/100) (70/100) 0 then Signal.buyYes else Signal.buyNo) :=
  (c3_amended (77/100) (70/100) 5 0 (by norm_num) (by norm_num)).1 (by
    have hedge : forced_edge (77/100) (70/100) 0 = 7 := by
      norm_num [forced_edge, dampenedProb, apply_dampening]
    rw [hedge]
    rw [abs_of_nonneg (by norm_num : (0:ℚ) ≤ 7)]
    norm_num)

/-! ## Prediction ledger

One `PredRecord` per row of the `prediction_tracking` table; nullable
columns become `Option` fields.  Timestamps are modelled as rational hours
on a global clock. -/

/-- A `prediction_tracking` row (the columns the verified properties
touch). -/
structure PredRecord where
  market_id : ℕ
  signal_type : Signal
  ai_probability : Option ℚ
  market_price_at_signal : ℚ
  edge_at_signal : ℚ
  confidence : Confidence
  created_at : ℚ
  price_after_1h : Option ℚ
  snapshot_1h_at : Option ℚ
  price_after_6h : Option ℚ
  snapshot_6h_at : Option ℚ
  price_after_24h : Option ℚ
  snapshot_24h_at : Option ℚ
  price_after_48h : Option ℚ
  snapshot_48h_at : Option ℚ
  price_after_7d : Option ℚ
  snapshot_7d_at : Option ℚ
  final_resolution : Option Resolution
  resolved_at : Option ℚ
  hypothetical_pnl : Option ℚ
  direction_correct : Option ℤ
  original_signal_type : Option Signal
  original_ai_probability : Option ℚ
  revised_at : Option ℚ
  revision_reason : Option String
  whale_status : Option String
deriving DecidableEq, Repr

/-- The decision output handed to `AccuracyTracker.record_prediction`. -/
structure DecisionResult where
  recommendation : Signal
  ai_probability : ℚ
  market_price : ℚ
  edge : ℚ
  confidence : Confidence
deriving DecidableEq, Repr

/-- The fresh ACTIVE row inserted by `record_prediction`. -/
def mkTrackedRecord (market_id : ℕ) (res : DecisionResult) (now : ℚ) : PredRecord :=
  { market_id := market_id
    signal_type := res.recommendation
    ai_probability := some res.ai_probability
    market_price_at_signal := res.market_price
    edge_at_signal := res.edge
    confidence := res.confidence
    created_at := now
    price_after_1h := none, snapshot_1h_at := none
    price_after_6h := none, snapshot_6h_at := none
    price_after_24h := none, snapshot_24h_at := none
    price_after_48h := none, snapshot_48h_at := none
    price_after_7d := none, snapshot_7d_at := none
    final_resolution := none
    resolved_at := none
    hypothetical_pnl := none
    direction_correct := none
    original_signal_type := none
    original_ai_probability := none
    revised_at := none
    revision_reason := none
    whale_status := none }

/-- The dedup query of `record_prediction`:
`SELECT id FROM prediction_tracking WHERE market_id = ? AND final_resolution IS NULL`. -/
def hasUnresolvedFor (ledger : List PredRecord) (mid : ℕ) : Bool :=
  ledger.any fun r => decide (r.market_id = mid ∧ r.final_resolution = none)

/-- `AccuracyTracker.record_prediction`: reject non-BUY recommendations,
reject (no-op) when an unresolved row already exists for the market,
otherwise append a fresh ACTIVE row.  Returns the new row index (the
`track_id`) on success. -/
def record_prediction (ledger : List PredRecord) (mid : ℕ) (res : DecisionResult)
    (now : ℚ) : Option ℕ × List PredRecord :=
  if res.recommendation ≠ Signal.buyYes ∧ res.recommendation ≠ Signal.buyNo then
    (none, ledger)
  else if hasUnresolvedFor ledger mid then (none, ledger)
  else (some ledger.length, ledger ++ [mkTrackedRecord mid res now])

/-- The 1h branch of `update_snapshots`: if at least 1 hour has elapsed and
the slot's timestamp is still NULL, write (price, now) into the slot. -/
def updSlot1h (now hours_since cp : ℚ) (r : PredRecord) : PredRecord :=
  if 1 ≤ hours_since ∧ r.snapshot_1h_at = none then
    { r with price_after_1h := some cp, snapshot_1h_at := some now } else r

/-- The 6h branch of `update_snapshots`. -/
def updSlot6h (now hours_since cp : ℚ) (r : PredRecord) : PredRecord :=
  if 6 ≤ hours_since ∧ r.snapshot_6h_at = none then
    { r with price_after_6h := some cp, snapshot_6h_at := some now } else r

/-- The 24h branch of `update_snapshots`. -/
def updSlot24h (now hours_since cp : ℚ) (r : PredRecord) : PredRecord :=
  if 24 ≤ hours_since ∧ r.snapshot_24h_at = none then
    { r with price_after_24h := some cp, snapshot_24h_at := some now } else r

/-- The 48h branch of `update_snapshots`. -/
def updSlot48h (now hours_since cp : ℚ) (r : PredRecord) : PredRecord :=
  if 48 ≤ hours_since ∧ r.snapshot_48h_at = none then
    { r with price_after_48h := some cp, snapshot_48h_at := some now } else r

/-- The 7d (168h) branch of `update_snapshots`. -/
def updSlot7d (now hours_since cp : ℚ) (r : PredRecord) : PredRecord :=
  if 168 ≤ hours_since ∧ r.snapshot_7d_at = none then
    { r with price_after_7d := some cp, snapshot_7d_at := some now } else r

/-- One record's pass of `AccuracyTracker.update_snapshots`: for each
horizon in {1, 6, 24, 48, 168} hours whose elapsed time has passed and
whose timestamp slot is still NULL, write the current price and the current
time into the slot.  Records with a final resolution are not selected, and
a record whose market price cannot be fetched is skipped. -/
def updateSnapshotsRecord (now : ℚ) (current_price : Option ℚ) (r : PredRecord) :
    PredRecord :=
  if r.final_resolution ≠ none then r
  else
    match current_price with
    | none => r
    | some cp =>
      let hours_since := now - r.created_at
      updSlot7d now hours_since cp (updSlot48h now hours_since cp
        (updSlot24h now hours_since cp (updSlot6h now hours_since cp
          (updSlot1h now hours_since cp r))))

/-- Signal direction matches the resolution: BUY_YES with YES or BUY_NO
with NO (`_check_resolutions`, lines 280-283 of accuracy_tracker.py). -/
def signalMatches (signal : Signal) (res : Resolution) : Bool :=
  decide ((signal = Signal.buyYes ∧ res = Resolution.yes) ∨
    (signal = Signal.buyNo ∧ res = Resolution.no))

/-- Python's round-half-to-even at the integers, on exact rationals. -/
def roundHalfEven (q : ℚ) : ℤ :=
  let f := ⌊q⌋
  let frac := q - f
  if frac < 1/2 then f
  else if 1/2 < frac then f + 1
  else if f % 2 = 0 then f else f + 1

/-- `round(x, 2)` on exact rationals. -/
def round2 (q : ℚ) : ℚ := roundHalfEven (q * 100) / 100

/-- `AccuracyTracker._calculate_pnl`: hypothetical P&L on a $100 bet; for a
BUY_NO, the entry price of the chosen side is `1 - entry_price`. -/
def calculate_pnl (signal : Signal) (entry_price : ℚ) (res : Resolution) : ℚ :=
  let bet : ℚ := 100
  match signal with
  | Signal.buyYes =>
    if res = Resolution.yes then round2 (bet * (1 - entry_price) / entry_price) else -bet
  | Signal.buyNo =>
    let no_price := 1 - entry_price
    if res = Resolution.no then round2 (bet * (1 - no_price) / no_price) else -bet
  | _ => 0

/-- The terminal update applied by `_check_resolutions` once a resolution
is classified. -/
def resolveRecord (r : PredRecord) (res : Resolution) (now : ℚ) : PredRecord :=
  { r with
    final_resolution := some res
    resolved_at := some now
    hypothetical_pnl := some (calculate_pnl r.signal_type r.market_price_at_signal res)
    direction_correct := some (if signalMatches r.signal_type res then 1 else 0) }

/-- One record's pass of `AccuracyTracker._check_resolutions`: only
unresolved records are selected; a record resolves only when its market is
closed and the final YES price is ≥ 0.95 (YES) or ≤ 0.05 (NO); anything in
between stays ACTIVE. -/
def checkResolutionRecord (closed : Bool) (yes_price : Option ℚ) (now : ℚ)
    (r : PredRecord) : PredRecord :=
  if r.final_resolution ≠ none then r
  else
    match yes_price with
    | none => r
    | some yp =>
      if ¬ closed then r
      else if 95/100 ≤ yp then resolveRecord r Resolution.yes now
      else if yp ≤ 5/100 then resolveRecord r Resolution.no now
      else r

/-- auto_resolver.py lines 230-238: the probability-based correctness used
by `run_auto_resolver` — the AI estimate ≥ 0.5 with a YES resolution, or
< 0.5 with a NO resolution. -/
def autoDirectionCorrect (ai_probability : ℚ) (res : Resolution) : ℤ :=
  if (1/2 ≤ ai_probability ∧ res = Resolution.yes) ∨
      (ai_probability < 1/2 ∧ res = Resolution.no) then 1 else 0

/-- One record's pass of `run_auto_resolver` / `update_resolution`: for an
unresolved record whose market reports a resolution, set
`final_resolution`, `resolved_at` and the probability-based
`direction_correct` (no P&L is written on this path). -/
def autoResolveRecord (res : Option Resolution) (now : ℚ) (r : PredRecord) : PredRecord :=
  if r.final_resolution ≠ none then r
  else
    match res, r.ai_probability with
    | some resolution, some p =>
      { r with
        final_resolution := some resolution
        resolved_at := some now
        direction_correct := some (autoDirectionCorrect p resolution) }
    | _, _ => r

/-- SQL `COALESCE` on two nullable values. -/
def coalesce {α : Type} (a b : Option α) : Option α :=
  match a with
  | some x => some x
  | none => b

/-- The optional fields of the revised analysis consumed by
`reanalysis_scheduler.update_prediction_tracking`. -/
structure RevisedAnalysis where
  revised_signal : Option Signal
  revised_probability : Option ℚ
  revised_confidence : Option Confidence
  current_market_price : Option ℚ
deriving Repr

/-- `reanalysis_scheduler.update_prediction_tracking`, guarded by the
selection of `get_predictions_near_close` (`final_resolution IS NULL AND
revised_at IS NULL`): archive the pre-revision signal/probability into the
`original_*` columns and overwrite the current
signal/probability/edge/confidence, stamping `revised_at`. -/
def reanalysisReviseRecord (rev : RevisedAnalysis) (now : ℚ) (r : PredRecord) :
    PredRecord :=
  if r.final_resolution = none ∧ r.revised_at = none then
    let newProb := coalesce rev.revised_probability r.ai_probability
    { r with
      original_signal_type := some r.signal_type
      original_ai_probability := r.ai_probability
      signal_type := rev.revised_signal.getD r.signal_type
      ai_probability := newProb
      edge_at_signal :=
        round2 ((newProb.getD 0 -
          rev.current_market_price.getD r.market_price_at_signal) * 100)
      confidence := rev.revised_confidence.getD r.confidence
      revised_at := some now
      revision_reason := some "Re-analysis completed" }
  else r

/-- The failed-reanalysis branch of `run_reanalysis`: stamp `revised_at`
and a reason, change nothing else (same selection guard). -/
def reanalysisFailedRecord (now : ℚ) (r : PredRecord) : PredRecord :=
  if r.final_resolution = none ∧ r.revised_at = none then
    { r with revised_at := some now, revision_reason := some "Re-analysis failed" }
  else r

/-- `whale_trades_monitor.handle_whale_exit`, guarded by the selection of
`check_whale_exit` (`final_resolution IS NULL AND whale_status =
'HOLDING'`): mark the whale exited; if the fresh decision differs from the
current signal, archive the originals with COALESCE (write-once) and
overwrite the signal, else only stamp the revision. -/
def whaleExitRecord (newSignal : Signal) (newProb : ℚ) (now : ℚ) (r : PredRecord) :
    PredRecord :=
  if r.final_resolution = none ∧ r.whale_status = some "HOLDING" then
    let r1 := { r with whale_status := some "EXITED" }
    if newSignal ≠ r.signal_type then
      { r1 with
        original_signal_type := coalesce r1.original_signal_type (some r1.signal_type)
        original_ai_probability := coalesce r1.original_ai_probability r1.ai_probability
        signal_type := newSignal
        ai_probability := some newProb
        revised_at := some now
        revision_reason := some "Whale exit detected - re-analyzed" }
    else
      { r1 with
        revised_at := some now
        revision_reason := some "Whale exit detected - signal unchanged" }
  else r

/-- `whale_trades_monitor.handle_existing_signal`, guarded by the selection
of `check_existing_signal` (`final_resolution IS NULL`): a same-direction
whale only updates whale metadata and stamps the revision; an opposite
whale with which the fresh AI run agrees revises the signal, archiving the
originals with COALESCE; otherwise the AI wins and only the revision is
stamped. -/
def whaleExistingSignalRecord (sameDirection : Bool) (aligned : Bool)
    (newSignal : Option Signal) (newProb : ℚ) (now : ℚ) (r : PredRecord) : PredRecord :=
  if r.final_resolution = none then
    if sameDirection then
      { r with whale_status := some "HOLDING", revised_at := some now,
               revision_reason := some "Whale confirmed existing signal" }
    else
      match newSignal with
      | some ns =>
        if aligned ∧ ns ≠ r.signal_type then
          { r with
            original_signal_type := coalesce r.original_signal_type (some r.signal_type)
            original_ai_probability := coalesce r.original_ai_probability r.ai_probability
            signal_type := ns
            ai_probability := some newProb
            whale_status := some "HOLDING"
            revised_at := some now
            revision_reason := some "Whale and AI aligned" }
        else
          { r with revised_at := some now,
                   revision_reason := some "Whale conflict - AI disagrees" }
      | none =>
        { r with revised_at := some now,
                 revision_reason := some "Whale conflict - AI disagrees" }
  else r

/-! ## Scheduled jobs as a step relation

The batch jobs (signal creation, snapshot updater, resolution checkers,
re-analysis, whale monitoring) act on the shared `prediction_tracking`
table.  Record-level mutations become `RecordOp`; whole-table jobs become
`LedgerOp`. -/

/-- A mutation of one tracked record by one of the scheduled jobs. -/
inductive RecordOp
  | snapshot (now : ℚ) (current_price : Option ℚ)
  | checkResolution (closed : Bool) (yes_price : Option ℚ) (now : ℚ)
  | autoResolve (res : Option Resolution) (now : ℚ)
  | reanalysisRevise (rev : RevisedAnalysis) (now : ℚ)
  | reanalysisFailed (now : ℚ)
  | whaleExit (newSignal : Signal) (newProb : ℚ) (now : ℚ)
  | whaleExisting (sameDirection aligned : Bool) (newSignal : Option Signal)
      (newProb : ℚ) (now : ℚ)

/-- Apply one record-level mutation. -/
def applyRecordOp : RecordOp → PredRecord → PredRecord
  | RecordOp.snapshot now cp, r => updateSnapshotsRecord now cp r
  | RecordOp.checkResolution closed yp now, r => checkResolutionRecord closed yp now r
  | RecordOp.autoResolve res now, r => autoResolveRecord res now r
  | RecordOp.reanalysisRevise rev now, r => reanalysisReviseRecord rev now r
  | RecordOp.reanalysisFailed now, r => reanalysisFailedRecord now r
  | RecordOp.whaleExit ns np now, r => whaleExitRecord ns np now r
  | RecordOp.whaleExisting sd al ns np now, r => whaleExistingSignalRecord sd al ns np now r

/-- Apply a sequence of record-level mutations, oldest first. -/
def applyRecordOps (ops : List RecordOp) (r : PredRecord) : PredRecord :=
  ops.foldl (fun acc op => applyRecordOp op acc) r

/-- `AccuracyTracker.update_snapshots` over the whole table: fill due empty
snapshot slots for every unresolved record, then run
`_check_resolutions`.  `price` and `closed` are the external market-data
lookups, per market reference. -/
def update_snapshots (now : ℚ) (price : ℕ → Option ℚ) (closed : ℕ → Bool)
    (ledger : List PredRecord) : List PredRecord :=
  ledger.map fun r =>
    checkResolutionRecord (closed r.market_id) (price r.market_id) now
      (updateSnapshotsRecord now (price r.market_id) r)

/-- `run_auto_resolver` over the whole table: resolve every unresolved
record whose market reports a terminal outcome. -/
def run_auto_resolver (res : ℕ → Option Resolution) (now : ℚ)
    (ledger : List PredRecord) : List PredRecord :=
  ledger.map fun r => autoResolveRecord (res r.market_id) now r

/-- Replace the element at an index; out-of-range indices are a no-op. -/
def modifyIdx {α : Type} (f : α → α) : ℕ → List α → List α
  | _, [] => []
  | 0, a :: l => f a :: l
  | n+1, a :: l => a :: modifyIdx f n l

/-- A whole-table step by one of the scheduled jobs. -/
inductive LedgerOp
  | create (mid : ℕ) (res : DecisionResult) (now : ℚ)
  | snapshots (now : ℚ) (price : ℕ → Option ℚ) (closed : ℕ → Bool)
  | autoResolver (res : ℕ → Option Resolution) (now : ℚ)
  | reviseAt (i : ℕ) (op : RecordOp)

/-- Apply one whole-table step. -/
def applyLedgerOp : LedgerOp → List PredRecord → List PredRecord
  | LedgerOp.create mid res now, l => (record_prediction l mid res now).2
  | LedgerOp.snapshots now price closed, l => update_snapshots now price closed l
  | LedgerOp.autoResolver res now, l => run_auto_resolver res now l
  | LedgerOp.reviseAt i op, l => modifyIdx (applyRecordOp op) i l

/-- Apply a sequence of whole-table steps, oldest first; every reachable
ledger state arises this way from the empty table. -/
def applyLedgerOps (ops : List LedgerOp) (l : List PredRecord) : List PredRecord :=
  ops.foldl (fun acc op => applyLedgerOp op acc) l

/-- Number of unresolved records for a market reference. -/
def unresolvedCount (ledger : List PredRecord) (mid : ℕ) : ℕ :=
  ledger.countP fun r => decide (r.market_id = mid ∧ r.final_resolution = none)

/-! ### Preservation lemmas for the per-record transforms -/

/-- The 1h updater leaves every field other than its own slot pair
unchanged. -/
lemma updSlot1h_others (now hs cp : ℚ) (r : PredRecord) :
    (updSlot1h now hs cp r).market_id = r.market_id ∧
    (updSlot1h now hs cp r).signal_type = r.signal_type ∧
    (updSlot1h now hs cp r).ai_probability = r.ai_probability ∧
    (updSlot1h now hs cp r).created_at = r.created_at ∧
    (updSlot1h now hs cp r).final_resolution = r.final_resolution ∧
    (updSlot1h now hs cp r).original_signal_type = r.original_signal_type ∧
    (updSlot1h now hs cp r).original_ai_probability = r.original_ai_probability ∧
    (updSlot1h now hs cp r).revised_at = r.revised_at ∧
    (updSlot1h now hs cp r).price_after_6h = r.price_after_6h ∧
    (updSlot1h now hs cp r).snapshot_6h_at = r.snapshot_6h_at ∧
    (updSlot1h now hs cp r).price_after_24h = r.price_after_24h ∧
    (updSlot1h now hs cp r).snapshot_24h_at = r.snapshot_24h_at ∧
    (updSlot1h now hs cp r).price_after_48h = r.price_after_48h ∧
    (updSlot1h now hs cp r).snapshot_48h_at = r.snapshot_48h_at ∧
    (updSlot1h now hs cp r).price_after_7d = r.price_after_7d ∧
    (updSlot1h now hs cp r).snapshot_7d_at = r.snapshot_7d_at := by
  unfold updSlot1h
  split_ifs <;> simp

/-- The 6h updater leaves every field other than its own slot pair
unchanged. -/
lemma updSlot6h_others (now hs cp : ℚ) (r : PredRecord) :
    (updSlot6h now hs cp r).market_id = r.market_id ∧
    (updSlot6h now hs cp r).signal_type = r.signal_type ∧
    (updSlot6h now hs cp r).ai_probability = r.ai_probability ∧
    (updSlot6h now hs cp r).created_at = r.created_at ∧
    (updSlot6h now hs cp r).final_resolution = r.final_resolution ∧
    (updSlot6h now hs cp r).original_signal_type = r.original_signal_type ∧
    (updSlot6h now hs cp r).original_ai_probability = r.original_ai_probability ∧
    (updSlot6h now hs cp r).revised_at = r.revised_at ∧
    (updSlot6h now hs cp r).price_after_1h = r.price_after_1h ∧
    (updSlot6h now hs cp r).snapshot_1h_at = r.snapshot_1h_at ∧
    (updSlot6h now hs cp r).price_after_24h = r.price_after_24h ∧
    (updSlot6h now hs cp r).snapshot_24h_at = r.snapshot_24h_at ∧
    (updSlot6h now hs cp r).price_after_48h = r.price_after_48h ∧
    (updSlot6h now hs cp r).snapshot_48h_at = r.snapshot_48h_at ∧
    (updSlot6h now hs cp r).price_after_7d = r.price_after_7d ∧
    (updSlot6h now hs cp r).snapshot_7d_at = r.snapshot_7d_at := by
  unfold updSlot6h
  split_ifs <;> simp

/-- The 24h updater leaves every field other than its own slot pair
unchanged. -/
lemma updSlot24h_others (now hs cp : ℚ) (r : PredRecord) :
    (updSlot24h now hs cp r).market_id = r.market_id ∧
    (updSlot24h now hs cp r).signal_type = r.signal_type ∧
    (updSlot24h now hs cp r).ai_probability = r.ai_probability ∧
    (updSlot24h now hs cp r).created_at = r.created_at ∧
    (updSlot24h now hs cp r).final_resolution = r.final_resolution ∧
    (updSlot24h now hs cp r).original_signal_type = r.original_signal_type ∧
    (updSlot24h now hs cp r).original_ai_probability = r.original_ai_probability ∧
    (updSlot24h now hs cp r).revised_at = r.revised_at ∧
    (updSlot24h now hs cp r).price_after_1h = r.price_after_1h ∧
    (updSlot24h now hs cp r).snapshot_1h_at = r.snapshot_1h_at ∧
    (updSlot24h now hs cp r).price_after_6h = r.price_after_6h ∧
    (updSlot24h now hs cp r).snapshot_6h_at = r.snapshot_6h_at ∧
    (updSlot24h now hs cp r).price_after_48h = r.price_after_48h ∧
    (updSlot24h now hs cp r).snapshot_48h_at = r.snapshot_48h_at ∧
    (updSlot24h now hs cp r).price_after_7d = r.price_after_7d ∧
    (updSlot24h now hs cp r).snapshot_7d_at = r.snapshot_7d_at := by
  unfold updSlot24h
  split_ifs <;> simp

/-- The 48h updater leaves every field other than its own slot pair
unchanged. -/
lemma updSlot48h_others (now hs cp : ℚ) (r : PredRecord) :
    (updSlot48h now hs cp r).market_id = r.market_id ∧
    (updSlot48h now hs cp r).signal_type = r.signal_type ∧
    (updSlot48h now hs cp r).ai_probability = r.ai_probability ∧
    (updSlot48h now hs cp r).created_at = r.created_at ∧
    (updSlot48h now hs cp r).final_resolution = r.final_resolution ∧
    (updSlot48h now hs cp r).original_signal_type = r.original_signal_type ∧
    (updSlot48h now hs cp r).original_ai_probability = r.original_ai_probability ∧
    (updSlot48h now hs cp r).revised_at = r.revised_at ∧
    (updSlot48h now hs cp r).price_after_1h = r.price_after_1h ∧
    (updSlot48h now hs cp r).snapshot_1h_at = r.snapshot_1h_at ∧
    (updSlot48h now hs cp r).price_after_6h = r.price_after_6h ∧
    (updSlot48h now hs cp r).snapshot_6h_at = r.snapshot_6h_at ∧
    (updSlot48h now hs cp r).price_after_24h = r.price_after_24h ∧
    (updSlot48h now hs cp r).snapshot_24h_at = r.snapshot_24h_at ∧
    (updSlot48h now hs cp r).price_after_7d = r.price_after_7d ∧
    (updSlot48h now hs cp r).snapshot_7d_at = r.snapshot_7d_at := by
  unfold updSlot48h
  split_ifs <;> simp

/-- The 7d updater leaves every field other than its own slot pair
unchanged. -/
lemma updSlot7d_others (now hs cp : ℚ) (r : PredRecord) :
    (updSlot7d now hs cp r).market_id = r.market_id ∧
    (updSlot7d now hs cp r).signal_type = r.signal_type ∧
    (updSlot7d now hs cp r).ai_probability = r.ai_probability ∧
    (updSlot7d now hs cp r).created_at = r.created_at ∧
    (updSlot7d now hs cp r).final_resolution = r.final_resolution ∧
    (updSlot7d now hs cp r).original_signal_type = r.original_signal_type ∧
    (updSlot7d now hs cp r).original_ai_probability = r.original_ai_probability ∧
    (updSlot7d now hs cp r).revised_at = r.revised_at ∧
    (updSlot7d now hs cp r).price_after_1h = r.price_after_1h ∧
    (updSlot7d now hs cp r).snapshot_1h_at = r.snapshot_1h_at ∧
    (updSlot7d now hs cp r).price_after_6h = r.price_after_6h ∧
    (updSlot7d now hs cp r).snapshot_6h_at = r.snapshot_6h_at ∧
    (updSlot7d now hs cp r).price_after_24h = r.price_after_24h ∧
    (updSlot7d now hs cp r).snapshot_24h_at = r.snapshot_24h_at ∧
    (updSlot7d now hs cp r).price_after_48h = r.price_after_48h ∧
    (updSlot7d now hs cp r).snapshot_48h_at = r.snapshot_48h_at := by
  unfold updSlot7d
  split_ifs <;> simp

/-- A populated 1h slot makes the 1h updater a no-op. -/
lemma updSlot1h_populated {t : ℚ} (now hs cp : ℚ) (r : PredRecord)
    (h : r.snapshot_1h_at = some t) : updSlot1h now hs cp r = r := by
  unfold updSlot1h
  rw [if_neg]
  rintro ⟨-, hn⟩
  rw [h] at hn
  cases hn

/-- A populated 6h slot makes the 6h updater a no-op. -/
lemma updSlot6h_populated {t : ℚ} (now hs cp : ℚ) (r : PredRecord)
    (h : r.snapshot_6h_at = some t) : updSlot6h now hs cp r = r := by
  unfold updSlot6h
  rw [if_neg]
  rintro ⟨-, hn⟩
  rw [h] at hn
  cases hn

/-- A populated 24h slot makes the 24h updater a no-op. -/
lemma updSlot24h_populated {t : ℚ} (now hs cp : ℚ) (r : PredRecord)
    (h : r.snapshot_24h_at = some t) : updSlot24h now hs cp r = r := by
  unfold updSlot24h
  rw [if_neg]
  rintro ⟨-, hn⟩
  rw [h] at hn
  cases hn

/-- A populated 48h slot makes the 48h updater a no-op. -/
lemma updSlot48h_populated {t : ℚ} (now hs cp : ℚ) (r : PredRecord)
    (h : r.snapshot_48h_at = some t) : updSlot48h now hs cp r = r := by
  unfold updSlot48h
  rw [if_neg]
  rintro ⟨-, hn⟩
  rw [h] at hn
  cases hn

/-- A populated 7d slot makes the 7d updater a no-op. -/
lemma updSlot7d_populated {t : ℚ} (now hs cp : ℚ) (r : PredRecord)
    (h : r.snapshot_7d_at = some t) : updSlot7d now hs cp r = r := by
  unfold updSlot7d
  rw [if_neg]
  rintro ⟨-, hn⟩
  rw [h] at hn
  cases hn

/-- The snapshot pass never changes the market reference, the signal
fields, the resolution or the revision fields. -/
lemma updateSnapshotsRecord_others (now : ℚ) (cp : Option ℚ) (r : PredRecord) :
    (updateSnapshotsRecord now cp r).market_id = r.market_id ∧
    (updateSnapshotsRecord now cp r).signal_type = r.signal_type ∧
    (updateSnapshotsRecord now cp r).ai_probability = r.ai_probability ∧
    (updateSnapshotsRecord now cp r).created_at = r.created_at ∧
    (updateSnapshotsRecord now cp r).final_resolution = r.final_resolution ∧
    (updateSnapshotsRecord now cp r).original_signal_type = r.original_signal_type ∧
    (updateSnapshotsRecord now cp r).original_ai_probability = r.original_ai_probability ∧
    (updateSnapshotsRecord now cp r).revised_at = r.revised_at := by
  unfold updateSnapshotsRecord
  split
  · exact ⟨rfl, rfl, rfl, rfl, rfl, rfl, rfl, rfl⟩
  · cases cp with
    | none => exact ⟨rfl, rfl, rfl, rfl, rfl, rfl, rfl, rfl⟩
    | some c =>
      simp [updSlot7d_others, updSlot48h_others, updSlot24h_others,
        updSlot6h_others, updSlot1h_others]

/-- No record-level transform changes the market reference. -/
lemma applyRecordOp_market_id (op : RecordOp) (r : PredRecord) :
    (applyRecordOp op r).market_id = r.market_id := by
  cases op with
  | snapshot now cp =>
    exact (updateSnapshotsRecord_others now cp r).1
  | checkResolution closed yp now =>
    simp only [applyRecordOp, checkResolutionRecord]
    split
    · rfl
    · split
      · rfl
      · split_ifs <;> rfl
  | autoResolve res now =>
    simp only [applyRecordOp, autoResolveRecord]
    split
    · rfl
    · split <;> rfl
  | reanalysisRevise rev now =>
    simp only [applyRecordOp, reanalysisReviseRecord]
    split_ifs <;> rfl
  | reanalysisFailed now =>
    simp only [applyRecordOp, reanalysisFailedRecord]
    split_ifs <;> rfl
  | whaleExit ns np now =>
    simp only [applyRecordOp, whaleExitRecord]
    split_ifs <;> rfl
  | whaleExisting sd al ns np now =>
    simp only [applyRecordOp, whaleExistingSignalRecord]
    split_ifs
    · rfl
    · split
      · split_ifs <;> rfl
      · rfl
    · rfl

/-- No record-level transform un-resolves a record: a record unresolved
after the transform was unresolved before. -/
lemma applyRecordOp_unresolved (op : RecordOp) (r : PredRecord)
    (h : (applyRecordOp op r).final_resolution = none) : r.final_resolution = none := by
  by_cases hr : r.final_resolution = none
  · exact hr
  · exfalso
    apply hr
    rw [← h]
    cases op with
    | snapshot now cp =>
      simp only [applyRecordOp, updateSnapshotsRecord, if_pos hr]
    | checkResolution closed yp now =>
      simp only [applyRecordOp, checkResolutionRecord, if_pos hr]
    | autoResolve res now =>
      simp only [applyRecordOp, autoResolveRecord, if_pos hr]
    | reanalysisRevise rev now =>
      simp only [applyRecordOp, reanalysisReviseRecord]
      rw [if_neg (fun hc => hr hc.1)]
    | reanalysisFailed now =>
      simp only [applyRecordOp, reanalysisFailedRecord]
      rw [if_neg (fun hc => hr hc.1)]
    | whaleExit ns np now =>
      simp only [applyRecordOp, whaleExitRecord]
      rw [if_neg (fun hc => hr hc.1)]
    | whaleExisting sd al ns np now =>
      simp only [applyRecordOp, whaleExistingSignalRecord, if_neg hr]

/-- Counting a predicate over a mapped list cannot grow when the map
reflects the predicate. -/
lemma countP_map_le {α : Type} (f : α → α) (p : α → Bool)
    (h : ∀ a, p (f a) = true → p a = true) (l : List α) :
    (l.map f).countP p ≤ l.countP p := by
  induction l with
  | nil => simp
  | cons a l ih =>
    simp only [List.map_cons, List.countP_cons]
    by_cases hpa : p (f a) = true
    · rw [if_pos hpa, if_pos (h a hpa)]
      exact Nat.add_le_add_right ih 1
    · rw [if_neg hpa]
      exact le_trans ih (Nat.le_add_right _ _)

/-- Counting a predicate after modifying one element cannot grow when the
modification reflects the predicate. -/
lemma countP_modifyIdx_le {α : Type} (f : α → α) (p : α → Bool)
    (h : ∀ a, p (f a) = true → p a = true) :
    ∀ (i : ℕ) (l : List α), (modifyIdx f i l).countP p ≤ l.countP p := by
  intro i l
  induction l generalizing i with
  | nil => simp [modifyIdx]
  | cons a l ih =>
    cases i with
    | zero =>
      simp only [modifyIdx, List.countP_cons]
      by_cases hpa : p (f a) = true
      · rw [if_pos hpa, if_pos (h a hpa)]
      · rw [if_neg hpa]
        exact le_trans (Nat.le_refl _) (Nat.le_add_right _ _)
    | succ n =>
      simp only [modifyIdx, List.countP_cons]
      exact Nat.add_le_add_right (ih n) _

/-- The per-record predicate counted by `unresolvedCount`. -/
lemma unresolved_pred_iff (mid : ℕ) (r : PredRecord) :
    (decide (r.market_id = mid ∧ r.final_resolution = none)) = true ↔
      (r.market_id = mid ∧ r.final_resolution = none) := decide_eq_true_iff

/-- The per-record pass of the snapshot job reflects "unresolved for
market mid". -/
lemma snapshotJob_reflects (now : ℚ) (price : ℕ → Option ℚ) (closed : ℕ → Bool)
    (mid : ℕ) (r : PredRecord)
    (h : (decide ((checkResolutionRecord (closed r.market_id) (price r.market_id) now
        (updateSnapshotsRecord now (price r.market_id) r)).market_id = mid ∧
      (checkResolutionRecord (closed r.market_id) (price r.market_id) now
        (updateSnapshotsRecord now (price r.market_id) r)).final_resolution = none)) = true) :
    (decide (r.market_id = mid ∧ r.final_resolution = none)) = true := by
  rw [unresolved_pred_iff] at h ⊢
  obtain ⟨hmid, hres⟩ := h
  constructor
  · have h1 : (checkResolutionRecord (closed r.market_id) (price r.market_id) now
        (updateSnapshotsRecord now (price r.market_id) r)).market_id =
        (updateSnapshotsRecord now (price r.market_id) r).market_id :=
      applyRecordOp_market_id
        (RecordOp.checkResolution (closed r.market_id) (price r.market_id) now) _
    have h2 : (updateSnapshotsRecord now (price r.market_id) r).market_id = r.market_id :=
      applyRecordOp_market_id (RecordOp.snapshot now (price r.market_id)) r
    rw [h1, h2] at hmid
    exact hmid
  · have h1 := applyRecordOp_unresolved
      (RecordOp.checkResolution (closed r.market_id) (price r.market_id) now)
      (updateSnapshotsRecord now (price r.market_id) r) hres
    exact applyRecordOp_unresolved (RecordOp.snapshot now (price r.market_id)) r h1

/-- An unresolved-count of zero is exactly a false dedup check. -/
lemma hasUnresolvedFor_false_iff (l : List PredRecord) (mid : ℕ) :
    hasUnresolvedFor l mid = false ↔ unresolvedCount l mid = 0 := by
  unfold hasUnresolvedFor unresolvedCount
  rw [List.countP_eq_zero]
  constructor
  · intro h r hr
    have := List.any_eq_false.mp h r hr
    simpa using this
  · intro h
    rw [List.any_eq_false]
    intro r hr
    simpa using h r hr

/-- Every whole-table step preserves the dedup bound: at most one
unresolved record per market reference. -/
lemma ledgerOp_dedup_step (op : LedgerOp) (l : List PredRecord)
    (h : ∀ mid, unresolvedCount l mid ≤ 1) :
    ∀ mid, unresolvedCount (applyLedgerOp op l) mid ≤ 1 := by
  intro mid
  cases op with
  | create cmid res now =>
    simp only [applyLedgerOp, record_prediction]
    split_ifs with h1 h2
    · exact h mid
    · exact h mid
    · unfold unresolvedCount
      rw [List.countP_append]
      by_cases hm : cmid = mid
      · subst hm
        have h0 : unresolvedCount l cmid = 0 :=
          (hasUnresolvedFor_false_iff l cmid).mp (Bool.of_not_eq_true h2)
        unfold unresolvedCount at h0
        rw [h0]
        simp [mkTrackedRecord]
      · have hle := h mid
        unfold unresolvedCount at hle
        have hnew : List.countP
            (fun r => decide (r.market_id = mid ∧ r.final_resolution = none))
            [mkTrackedRecord cmid res now] = 0 := by
          simp [mkTrackedRecord, hm]
        rw [hnew]
        simpa using hle
  | snapshots now price closed =>
    have := countP_map_le
      (fun r => checkResolutionRecord (closed r.market_id) (price r.market_id) now
        (updateSnapshotsRecord now (price r.market_id) r))
      (fun r => decide (r.market_id = mid ∧ r.final_resolution = none))
      (fun r => snapshotJob_reflects now price closed mid r) l
    exact le_trans this (h mid)
  | autoResolver res now =>
    have hrefl : ∀ r : PredRecord,
        (decide ((autoResolveRecord (res r.market_id) now r).market_id = mid ∧
          (autoResolveRecord (res r.market_id) now r).final_resolution = none)) = true →
        (decide (r.market_id = mid ∧ r.final_resolution = none)) = true := by
      intro r hr
      rw [unresolved_pred_iff] at hr ⊢
      refine ⟨?_, applyRecordOp_unresolved (RecordOp.autoResolve (res r.market_id) now) r hr.2⟩
      have hmi : (autoResolveRecord (res r.market_id) now r).market_id = r.market_id :=
        applyRecordOp_market_id (RecordOp.autoResolve (res r.market_id) now) r
      rw [hmi] at hr
      exact hr.1
    have := countP_map_le
      (fun r => autoResolveRecord (res r.market_id) now r)
      (fun r => decide (r.market_id = mid ∧ r.final_resolution = none)) hrefl l
    exact le_trans this (h mid)
  | reviseAt i op =>
    have hrefl : ∀ r : PredRecord,
        (decide ((applyRecordOp op r).market_id = mid ∧
          (applyRecordOp op r).final_resolution = none)) = true →
        (decide (r.market_id = mid ∧ r.final_resolution = none)) = true := by
      intro r hr
      rw [unresolved_pred_iff] at hr ⊢
      refine ⟨?_, applyRecordOp_unresolved op r hr.2⟩
      have := applyRecordOp_market_id op r
      rw [this] at hr
      exact hr.1
    exact le_trans (countP_modifyIdx_le (applyRecordOp op) _ hrefl i l) (h mid)

/-- The dedup bound holds in every state reachable from the empty table. -/
lemma ledgerOps_dedup (ops : List LedgerOp) :
    ∀ l, (∀ mid, unresolvedCount l mid ≤ 1) →
      ∀ mid, unresolvedCount (applyLedgerOps ops l) mid ≤ 1 := by
  induction ops with
  | nil => intro l h; exact h
  | cons op ops ih =>
    intro l h
    exact ih (applyLedgerOp op l) (ledgerOp_dedup_step op l h)

/-- C2: in every ledger state reachable from the empty table through the
scheduled jobs, each market reference has at most one unresolved prediction
record; and `record_prediction` on a market that already has an unresolved
record inserts nothing and returns `None`. -/
theorem c2_dedup_invariant :
    (∀ (ops : List LedgerOp) (mid : ℕ),
      unresolvedCount (applyLedgerOps ops []) mid ≤ 1) ∧
    (∀ (l : List PredRecord) (mid : ℕ) (res : DecisionResult) (now : ℚ),
      hasUnresolvedFor l mid = true → record_prediction l mid res now = (none, l)) := by
  constructor
  · intro ops mid
    exact ledgerOps_dedup ops [] (by intro m; simp [unresolvedCount]) mid
  · intro l mid res now hdup
    unfold record_prediction
    split_ifs <;> rfl

/-- A decision output used to build concrete witnesses. -/
def sampleDecision : DecisionResult :=
  { recommendation := Signal.buyYes
    ai_probability := 7/10
    market_price := 3/5
    edge := 10
    confidence := Confidence.high }

/-- C2 witness: two successive creations for market 7 leave at most one
unresolved record, and the duplicate creation is rejected as a no-op. -/
theorem c2_dedup_invariant_witness :
    unresolvedCount (applyLedgerOps
        [LedgerOp.create 7 sampleDecision 0, LedgerOp.create 7 sampleDecision 1] []) 7 ≤ 1 ∧
    record_prediction [mkTrackedRecord 7 sampleDecision 0] 7 sampleDecision 1 =
      (none, [mkTrackedRecord 7 sampleDecision 0]) :=
  ⟨c2_dedup_invariant.1 _ 7,
   c2_dedup_invariant.2 [mkTrackedRecord 7 sampleDecision 0] 7 sampleDecision 1 (by decide)⟩

/-! ### C7: snapshot slots are write-once -/

/-- A populated snapshot slot (timestamp and price) of `a` survives
unchanged into `b`, for each of the five horizons. -/
def slotsPreserved (a b : PredRecord) : Prop :=
  (∀ t, a.snapshot_1h_at = some t →
    b.snapshot_1h_at = some t ∧ b.price_after_1h = a.price_after_1h) ∧
  (∀ t, a.snapshot_6h_at = some t →
    b.snapshot_6h_at = some t ∧ b.price_after_6h = a.price_after_6h) ∧
  (∀ t, a.snapshot_24h_at = some t →
    b.snapshot_24h_at = some t ∧ b.price_after_24h = a.price_after_24h) ∧
  (∀ t, a.snapshot_48h_at = some t →
    b.snapshot_48h_at = some t ∧ b.price_after_48h = a.price_after_48h) ∧
  (∀ t, a.snapshot_7d_at = some t →
    b.snapshot_7d_at = some t ∧ b.price_after_7d = a.price_after_7d)

/-- The chained five-slot update never touches an already-populated slot. -/
lemma updCore_write_once (now hs c : ℚ) (r : PredRecord) :
    slotsPreserved r (updSlot7d now hs c (updSlot48h now hs c (updSlot24h now hs c
      (updSlot6h now hs c (updSlot1h now hs c r))))) := by
  unfold slotsPreserved
  refine ⟨?_, ?_, ?_, ?_, ?_⟩
  · intro t ht
    rw [updSlot1h_populated _ _ _ r ht]
    simp only [updSlot7d_others, updSlot48h_others, updSlot24h_others, updSlot6h_others]
    exact ⟨ht, trivial⟩
  · intro t ht
    rw [updSlot6h_populated _ _ _ _ (by simp only [updSlot1h_others]; exact ht)]
    simp only [updSlot7d_others, updSlot48h_others, updSlot24h_others, updSlot1h_others]
    exact ⟨ht, trivial⟩
  · intro t ht
    rw [updSlot24h_populated _ _ _ _
      (by simp only [updSlot6h_others, updSlot1h_others]; exact ht)]
    simp only [updSlot7d_others, updSlot48h_others, updSlot6h_others, updSlot1h_others]
    exact ⟨ht, trivial⟩
  · intro t ht
    rw [updSlot48h_populated _ _ _ _
      (by simp only [updSlot24h_others, updSlot6h_others, updSlot1h_others]; exact ht)]
    simp only [updSlot7d_others, updSlot24h_others, updSlot6h_others, updSlot1h_others]
    exact ⟨ht, trivial⟩
  · intro t ht
    rw [updSlot7d_populated _ _ _ _
      (by simp only [updSlot48h_others, updSlot24h_others, updSlot6h_others,
        updSlot1h_others]; exact ht)]
    simp only [updSlot48h_others, updSlot24h_others, updSlot6h_others, updSlot1h_others]
    exact ⟨ht, trivial⟩

/-- The snapshot pass never touches an already-populated slot. -/
lemma updateSnapshotsRecord_write_once (now : ℚ) (cp : Option ℚ) (r : PredRecord) :
    slotsPreserved r (updateSnapshotsRecord now cp r) := by
  unfold updateSnapshotsRecord
  split
  · exact ⟨fun t ht => ⟨ht, rfl⟩, fun t ht => ⟨ht, rfl⟩, fun t ht => ⟨ht, rfl⟩,
      fun t ht => ⟨ht, rfl⟩, fun t ht => ⟨ht, rfl⟩⟩
  · cases cp with
    | none =>
      exact ⟨fun t ht => ⟨ht, rfl⟩, fun t ht => ⟨ht, rfl⟩, fun t ht => ⟨ht, rfl⟩,
        fun t ht => ⟨ht, rfl⟩, fun t ht => ⟨ht, rfl⟩⟩
    | some c => exact updCore_write_once now (now - r.created_at) c r

/-- The resolution check leaves every snapshot slot untouched. -/
lemma checkResolutionRecord_slots (closed : Bool) (yp : Option ℚ) (now : ℚ)
    (r : PredRecord) :
    (checkResolutionRecord closed yp now r).price_after_1h = r.price_after_1h ∧
    (checkResolutionRecord closed yp now r).snapshot_1h_at = r.snapshot_1h_at ∧
    (checkResolutionRecord closed yp now r).price_after_6h = r.price_after_6h ∧
    (checkResolutionRecord closed yp now r).snapshot_6h_at = r.snapshot_6h_at ∧
    (checkResolutionRecord closed yp now r).price_after_24h = r.price_after_24h ∧
    (checkResolutionRecord closed yp now r).snapshot_24h_at = r.snapshot_24h_at ∧
    (checkResolutionRecord closed yp now r).price_after_48h = r.price_after_48h ∧
    (checkResolutionRecord closed yp now r).snapshot_48h_at = r.snapshot_48h_at ∧
    (checkResolutionRecord closed yp now r).price_after_7d = r.price_after_7d ∧
    (checkResolutionRecord closed yp now r).snapshot_7d_at = r.snapshot_7d_at := by
  unfold checkResolutionRecord resolveRecord
  split
  · simp
  · split
    · simp
    · split_ifs <;> simp

/-- One record of the combined snapshot-then-check pass preserves populated
slots. -/
lemma snapshotJob_write_once (now : ℚ) (price : ℕ → Option ℚ) (closed : ℕ → Bool)
    (r : PredRecord) :
    slotsPreserved r (checkResolutionRecord (closed r.market_id) (price r.market_id) now
      (updateSnapshotsRecord now (price r.market_id) r)) := by
  obtain ⟨h1, h6, h24, h48, h7d⟩ :=
    updateSnapshotsRecord_write_once now (price r.market_id) r
  have hc := checkResolutionRecord_slots (closed r.market_id) (price r.market_id) now
    (updateSnapshotsRecord now (price r.market_id) r)
  refine ⟨?_, ?_, ?_, ?_, ?_⟩
  · intro t ht
    obtain ⟨ha, hb⟩ := h1 t ht
    exact ⟨hc.2.1.trans ha, hc.1.trans hb⟩
  · intro t ht
    obtain ⟨ha, hb⟩ := h6 t ht
    exact ⟨hc.2.2.2.1.trans ha, hc.2.2.1.trans hb⟩
  · intro t ht
    obtain ⟨ha, hb⟩ := h24 t ht
    exact ⟨hc.2.2.2.2.2.1.trans ha, hc.2.2.2.2.1.trans hb⟩
  · intro t ht
    obtain ⟨ha, hb⟩ := h48 t ht
    exact ⟨hc.2.2.2.2.2.2.2.1.trans ha, hc.2.2.2.2.2.2.1.trans hb⟩
  · intro t ht
    obtain ⟨ha, hb⟩ := h7d t ht
    exact ⟨hc.2.2.2.2.2.2.2.2.2.trans ha, hc.2.2.2.2.2.2.2.2.1.trans hb⟩

/-- Mapping a slot-preserving transform over a ledger preserves populated
slots pointwise. -/
lemma forall2_slots_map (g : PredRecord → PredRecord)
    (hg : ∀ r, slotsPreserved r (g r)) (l : List PredRecord) :
    List.Forall₂ slotsPreserved l (l.map g) := by
  induction l with
  | nil => exact List.Forall₂.nil
  | cons a l ih => exact List.Forall₂.cons (hg a) ih

/-- C7: running the snapshot updater twice in immediate succession leaves
every already-populated snapshot slot (price and timestamp, for each of the
1h/6h/24h/48h/7d horizons) of every record unchanged — each slot is written
at most once and never overwritten, whatever prices, closures and times the
second run observes. -/
theorem c7_snapshot_write_once (l : List PredRecord) (now1 now2 : ℚ)
    (price1 price2 : ℕ → Option ℚ) (closed1 closed2 : ℕ → Bool) :
    List.Forall₂ slotsPreserved (update_snapshots now1 price1 closed1 l)
      (update_snapshots now2 price2 closed2 (update_snapshots now1 price1 closed1 l)) :=
  forall2_slots_map _ (snapshotJob_write_once now2 price2 closed2)
    (update_snapshots now1 price1 closed1 l)

/-- C7 witness: the write-once guarantee instantiated on a concrete
one-record ledger and two concrete runs an hour apart. -/
theorem c7_snapshot_write_once_witness :
    List.Forall₂ slotsPreserved
      (update_snapshots 2 (fun _ => some (1/2)) (fun _ => false)
        [mkTrackedRecord 7 sampleDecision 0])
      (update_snapshots 3 (fun _ => some (2/3)) (fun _ => false)
        (update_snapshots 2 (fun _ => some (1/2)) (fun _ => false)
          [mkTrackedRecord 7 sampleDecision 0])) :=
  c7_snapshot_write_once [mkTrackedRecord 7 sampleDecision 0] 2 3
    (fun _ => some (1/2)) (fun _ => some (2/3)) (fun _ => false) (fun _ => false)

/-! ### C9: revision archival is write-once -/

/-- State invariant tying the archival fields to the revision stamp: a
record with an archived original has necessarily been revised (every path
that writes `original_*` also stamps `revised_at`, and nothing clears the
stamp). -/
def originalsInv (r : PredRecord) : Prop :=
  (r.original_signal_type ≠ none ∨ r.original_ai_probability ≠ none) →
    r.revised_at ≠ none

/-- One scheduled-job step preserves the archival invariant and never
rewrites an already-archived original signal or probability. -/
lemma recordOp_originals_step (op : RecordOp) (r : PredRecord) (h : originalsInv r) :
    originalsInv (applyRecordOp op r) ∧
    (∀ s, r.original_signal_type = some s →
      (applyRecordOp op r).original_signal_type = some s) ∧
    (∀ p, r.original_ai_probability = some p →
      (applyRecordOp op r).original_ai_probability = some p) := by
  cases op with
  | snapshot now cp =>
    have ho := updateSnapshotsRecord_others now cp r
    simp only [applyRecordOp]
    refine ⟨?_, ?_, ?_⟩
    · intro hne
      rw [ho.2.2.2.2.2.2.2]
      apply h
      rw [ho.2.2.2.2.2.1, ho.2.2.2.2.2.2.1] at hne
      exact hne
    · intro s hs
      rw [ho.2.2.2.2.2.1]
      exact hs
    · intro p hp
      rw [ho.2.2.2.2.2.2.1]
      exact hp
  | checkResolution closed yp now =>
    simp only [applyRecordOp, checkResolutionRecord, resolveRecord]
    split
    · exact ⟨h, fun s hs => hs, fun p hp => hp⟩
    · split
      · exact ⟨h, fun s hs => hs, fun p hp => hp⟩
      · split_ifs <;>
          exact ⟨fun hne => h hne, fun s hs => hs, fun p hp => hp⟩
  | autoResolve res now =>
    simp only [applyRecordOp, autoResolveRecord]
    split
    · exact ⟨h, fun s hs => hs, fun p hp => hp⟩
    · split <;> exact ⟨fun hne => h hne, fun s hs => hs, fun p hp => hp⟩
  | reanalysisRevise rev now =>
    simp only [applyRecordOp, reanalysisReviseRecord]
    split_ifs with hg
    · refine ⟨?_, ?_, ?_⟩
      · intro _ hcontra
        cases hcontra
      · intro s hs
        exact absurd hg.2 (h (Or.inl (by rw [hs]; exact fun hc => Option.noConfusion hc)))
      · intro p hp
        exact absurd hg.2 (h (Or.inr (by rw [hp]; exact fun hc => Option.noConfusion hc)))
    · exact ⟨h, fun s hs => hs, fun p hp => hp⟩
  | reanalysisFailed now =>
    simp only [applyRecordOp, reanalysisFailedRecord]
    split_ifs with hg
    · refine ⟨?_, fun s hs => hs, fun p hp => hp⟩
      intro _ hcontra
      cases hcontra
    · exact ⟨h, fun s hs => hs, fun p hp => hp⟩
  | whaleExit ns np now =>
    simp only [applyRecordOp, whaleExitRecord]
    split_ifs with hg hchg
    · refine ⟨?_, ?_, ?_⟩
      · intro _ hcontra
        cases hcontra
      · intro s hs
        simp [coalesce, hs]
      · intro p hp
        simp [coalesce, hp]
    · refine ⟨?_, fun s hs => hs, fun p hp => hp⟩
      intro _ hcontra
      cases hcontra
    · exact ⟨h, fun s hs => hs, fun p hp => hp⟩
  | whaleExisting sd al ns np now =>
    simp only [applyRecordOp, whaleExistingSignalRecord]
    split_ifs with hg hsd
    · refine ⟨?_, fun s hs => hs, fun p hp => hp⟩
      intro _ hcontra
      cases hcontra
    · split
      · split_ifs
        · refine ⟨?_, ?_, ?_⟩
          · intro _ hcontra
            cases hcontra
          · intro s hs
            simp [coalesce, hs]
          · intro p hp
            simp [coalesce, hp]
        · refine ⟨?_, fun s hs => hs, fun p hp => hp⟩
          intro _ hcontra
          cases hcontra
      · refine ⟨?_, fun s hs => hs, fun p hp => hp⟩
        intro _ hcontra
        cases hcontra
    · exact ⟨h, fun s hs => hs, fun p hp => hp⟩

/-- Archived originals survive any sequence of scheduled-job steps. -/
lemma recordOps_originals (ops : List RecordOp) :
    ∀ r, originalsInv r →
      originalsInv (applyRecordOps ops r) ∧
      (∀ s, r.original_signal_type = some s →
        (applyRecordOps ops r).original_signal_type = some s) ∧
      (∀ p, r.original_ai_probability = some p →
        (applyRecordOps ops r).original_ai_probability = some p) := by
  induction ops with
  | nil => exact fun r h => ⟨h, fun s hs => hs, fun p hp => hp⟩
  | cons op ops ih =>
    intro r h
    obtain ⟨h1, h2, h3⟩ := recordOp_originals_step op r h
    obtain ⟨g1, g2, g3⟩ := ih (applyRecordOp op r) h1
    exact ⟨g1, fun s hs => g2 s (h2 s hs), fun p hp => g3 p (h3 p hp)⟩

/-- C9: once a revision has archived `original_signal_type` and
`original_ai_probability`, no later scheduled-job step (re-analysis, whale
handling, snapshots, resolutions) ever changes them — in particular a
second revision leaves the values archived at the first revision intact;
and the step that first sets the archival fields stores exactly the
pre-revision current signal and probability. -/
theorem c9_revision_archival (r : PredRecord) (ops : List RecordOp)
    (h : originalsInv r) :
    (∀ s, r.original_signal_type = some s →
      (applyRecordOps ops r).original_signal_type = some s) ∧
    (∀ p, r.original_ai_probability = some p →
      (applyRecordOps ops r).original_ai_probability = some p) ∧
    (∀ op, r.original_signal_type = none → r.original_ai_probability = none →
      ((applyRecordOp op r).original_signal_type = none ∧
        (applyRecordOp op r).original_ai_probability = none) ∨
      ((applyRecordOp op r).original_signal_type = some r.signal_type ∧
        (applyRecordOp op r).original_ai_probability = r.ai_probability)) := by
  obtain ⟨-, h2, h3⟩ := recordOps_originals ops r h
  refine ⟨h2, h3, ?_⟩
  intro op hsn hpn
  cases op with
  | snapshot now cp =>
    have ho := updateSnapshotsRecord_others now cp r
    left
    exact ⟨ho.2.2.2.2.2.1.trans hsn, ho.2.2.2.2.2.2.1.trans hpn⟩
  | checkResolution closed yp now =>
    left
    simp only [applyRecordOp, checkResolutionRecord, resolveRecord]
    split
    · exact ⟨hsn, hpn⟩
    · split
      · exact ⟨hsn, hpn⟩
      · split_ifs <;> exact ⟨hsn, hpn⟩
  | autoResolve res now =>
    left
    simp only [applyRecordOp, autoResolveRecord]
    split
    · exact ⟨hsn, hpn⟩
    · split <;> exact ⟨hsn, hpn⟩
  | reanalysisRevise rev now =>
    simp only [applyRecordOp, reanalysisReviseRecord]
    split_ifs
    · right
      exact ⟨rfl, rfl⟩
    · left
      exact ⟨hsn, hpn⟩
  | reanalysisFailed now =>
    left
    simp only [applyRecordOp, reanalysisFailedRecord]
    split_ifs <;> exact ⟨hsn, hpn⟩
  | whaleExit ns np now =>
    simp only [applyRecordOp, whaleExitRecord]
    split_ifs
    · right
      constructor
      · simp [coalesce, hsn]
      · simp [coalesce, hpn]
    · left
      exact ⟨hsn, hpn⟩
    · left
      exact ⟨hsn, hpn⟩
  | whaleExisting sd al ns np now =>
    simp only [applyRecordOp, whaleExistingSignalRecord]
    split_ifs
    · left
      exact ⟨hsn, hpn⟩
    · split
      · split_ifs
        · right
          constructor
          · simp [coalesce, hsn]
          · simp [coalesce, hpn]
        · left
          exact ⟨hsn, hpn⟩
      · left
        exact ⟨hsn, hpn⟩
    · left
      exact ⟨hsn, hpn⟩

/-- A concrete once-revised record: originals archived, revision stamped. -/
def sampleRevisedRecord : PredRecord :=
  { mkTrackedRecord 7 sampleDecision 0 with
    original_signal_type := some Signal.buyYes
    original_ai_probability := some (7/10)
    signal_type := Signal.buyNo
    revised_at := some 1 }

/-- C9 witness: a second whale-exit revision against the concrete revised
record leaves the archived original signal untouched. -/
theorem c9_revision_archival_witness :
    (applyRecordOps [RecordOp.whaleExit Signal.buyYes (1/2) 2]
      sampleRevisedRecord).original_signal_type = some Signal.buyYes :=
  (c9_revision_archival sampleRevisedRecord [RecordOp.whaleExit Signal.buyYes (1/2) 2]
    (fun _ => fun hc => Option.noConfusion hc)).1 Signal.buyYes rfl

/-! ## Accuracy aggregator

`self_awareness.SelfAwareness.calculate_overall_metrics`: the Brier score is
computed over all resolved records with a known probability, with the
outcome taken from the stored `direction_correct` flag
(`CASE WHEN direction_correct = 1 THEN 1.0 ELSE 0.0`).  (The report then
rounds the mean to 4 decimals; the claims concern the mean itself.) -/

/-- The outcome the aggregator's SQL feeds into the Brier sum: 1 when the
stored `direction_correct` flag is 1, else 0. -/
def brierOutcome (r : PredRecord) : ℚ :=
  if r.direction_correct = some 1 then 1 else 0

/-- The rows selected for the Brier computation:
`final_resolution IS NOT NULL AND ai_probability IS NOT NULL`, paired as
(probability, outcome). -/
def brierData (ledger : List PredRecord) : List (ℚ × ℚ) :=
  ledger.filterMap fun r =>
    match r.final_resolution, r.ai_probability with
    | some _, some p => some (p, brierOutcome r)
    | _, _ => none

/-- The Brier score of `calculate_overall_metrics`: the mean of
`(probability − outcome)²` over the selected rows, `None` when no row is
selected. -/
def brier_score (ledger : List PredRecord) : Option ℚ :=
  let l := brierData ledger
  if l = [] then none
  else some ((l.map fun x => (x.1 - x.2)^2).sum / l.length)

/-- The Brier score as the specification words it: outcome 1 exactly when
the market resolved YES, else 0.  (Stated for comparison with
`brier_score`; the code does not compute this.) -/
def brier_score_spec (ledger : List PredRecord) : Option ℚ :=
  let l := ledger.filterMap fun r =>
    match r.final_resolution, r.ai_probability with
    | some res, some p =>
      some (p, if res = Resolution.yes then (1:ℚ) else 0)
    | _, _ => none
  if l = [] then none
  else some ((l.map fun x => (x.1 - x.2)^2).sum / l.length)

/-- The Brier score with the outcome written as "the stored signal
direction matched the resolution". -/
def brier_score_match (ledger : List PredRecord) : Option ℚ :=
  let l := ledger.filterMap fun r =>
    match r.final_resolution, r.ai_probability with
    | some res, some p =>
      some (p, if signalMatches r.signal_type res then (1:ℚ) else 0)
    | _, _ => none
  if l = [] then none
  else some ((l.map fun x => (x.1 - x.2)^2).sum / l.length)

/-- A BUY_NO decision output used to build concrete counterexamples. -/
def sampleNoDecision : DecisionResult :=
  { recommendation := Signal.buyNo
    ai_probability := 1/5
    market_price := 7/10
    edge := -50
    confidence := Confidence.high }

/-- A BUY_NO decision whose AI probability is above one half. -/
def sampleNoHighProbDecision : DecisionResult :=
  { recommendation := Signal.buyNo
    ai_probability := 3/5
    market_price := 7/10
    edge := -10
    confidence := Confidence.high }

/-! ### C5: how direction_correct is set -/

/-- C5 counterexample: `run_auto_resolver` resolves a BUY_NO record with AI
probability 0.6 on a market that resolves NO with `direction_correct = 0`,
although the signal direction matches the resolution — the auto-resolver
uses the probability-based rule, not signal matching. -/
theorem c5_counterexample :
    (autoResolveRecord (some Resolution.no) 1
      (mkTrackedRecord 8 sampleNoHighProbDecision 0)).direction_correct = some 0 ∧
    signalMatches (mkTrackedRecord 8 sampleNoHighProbDecision 0).signal_type
      Resolution.no = true := by
  constructor
  · simp only [autoResolveRecord, mkTrackedRecord, sampleNoHighProbDecision]
    norm_num [autoDirectionCorrect]
    decide
  · simp [mkTrackedRecord, sampleNoHighProbDecision, signalMatches]

/-- C5 (amended): the two resolution-recording paths disagree.  The
accuracy tracker's `_check_resolutions` sets `direction_correct = 1` iff
the signal direction matches the resolution (BUY_YES with YES, BUY_NO with
NO); `run_auto_resolver` instead sets `direction_correct = 1` iff the
probability-based rule holds (AI probability ≥ 0.5 with YES, or < 0.5 with
NO). -/
theorem c5_amended :
    (∀ (r : PredRecord) (res : Resolution) (now : ℚ),
      (resolveRecord r res now).direction_correct =
        some (if signalMatches r.signal_type res then 1 else 0)) ∧
    (∀ (r : PredRecord) (res : Resolution) (now : ℚ) (p : ℚ),
      r.final_resolution = none → r.ai_probability = some p →
      (autoResolveRecord (some res) now r).direction_correct =
        some (autoDirectionCorrect p res)) := by
  constructor
  · intro r res now
    rfl
  · intro r res now p hres hp
    simp only [autoResolveRecord]
    rw [if_neg (by simp [hres])]
    rw [hp]

/-- C5 witness: both characterizations instantiated on the concrete BUY_NO
record above. -/
theorem c5_amended_witness :
    (resolveRecord (mkTrackedRecord 8 sampleNoHighProbDecision 0) Resolution.no
        1).direction_correct =
      some (if signalMatches (mkTrackedRecord 8 sampleNoHighProbDecision 0).signal_type
        Resolution.no then 1 else 0) ∧
    (autoResolveRecord (some Resolution.no) 1
        (mkTrackedRecord 8 sampleNoHighProbDecision 0)).direction_correct =
      some (autoDirectionCorrect (3/5) Resolution.no) :=
  ⟨c5_amended.1 (mkTrackedRecord 8 sampleNoHighProbDecision 0) Resolution.no 1,
   c5_amended.2 (mkTrackedRecord 8 sampleNoHighProbDecision 0) Resolution.no 1 (3/5)
     rfl rfl⟩

/-! ### C6: the Brier score's outcome -/

/-- C6 counterexample: one record, created as a BUY_NO with AI probability
0.2 and resolved NO by the accuracy tracker (so `direction_correct = 1`).
The code's Brier score is (0.2 − 1)² = 0.64, while the claimed mean with
"outcome 1 iff resolved YES" is (0.2 − 0)² = 0.04. -/
theorem c6_counterexample :
    brier_score [checkResolutionRecord true (some (1/100)) 1
      (mkTrackedRecord 9 sampleNoDecision 0)] = some (16/25) ∧
    brier_score_spec [checkResolutionRecord true (some (1/100)) 1
      (mkTrackedRecord 9 sampleNoDecision 0)] = some (1/25) ∧
    (16/25 : ℚ) ≠ 1/25 := by
  have hres : checkResolutionRecord true (some (1/100)) 1
      (mkTrackedRecord 9 sampleNoDecision 0) =
      resolveRecord (mkTrackedRecord 9 sampleNoDecision 0) Resolution.no 1 := by
    simp only [checkResolutionRecord, mkTrackedRecord, sampleNoDecision]
    norm_num
  refine ⟨?_, ?_, by norm_num⟩
  · rw [hres]
    simp only [brier_score, brierData, brierOutcome, resolveRecord, mkTrackedRecord,
      sampleNoDecision, signalMatches, List.filterMap]
    norm_num
  · rw [hres]
    simp only [brier_score_spec, resolveRecord, mkTrackedRecord, sampleNoDecision,
      List.filterMap]
    rw [if_neg (by decide : ¬ (Resolution.no = Resolution.yes))]
    norm_num

/-- C6 (amended): the reported Brier score is the mean of
`(probability − outcome)²` over resolved records with a known probability,
where the outcome is 1 exactly when the stored `direction_correct` flag is
1.  On any ledger whose resolved records carry the accuracy tracker's
signal-match flag, this equals the mean with outcome "signal direction
matched the resolution" — not "resolved YES". -/
theorem c6_amended (l : List PredRecord)
    (h : ∀ r ∈ l, ∀ res, r.final_resolution = some res →
      r.direction_correct = some (if signalMatches r.signal_type res then 1 else 0)) :
    brier_score l = brier_score_match l := by
  unfold brier_score brier_score_match
  have hdata : brierData l = l.filterMap fun r =>
      match r.final_resolution, r.ai_probability with
      | some res, some p =>
        some (p, if signalMatches r.signal_type res then (1:ℚ) else 0)
      | _, _ => none := by
    unfold brierData
    induction l with
    | nil => rfl
    | cons a l ih =>
      simp only [List.filterMap_cons]
      have ha := h a (List.mem_cons_self a l)
      have hl : ∀ r ∈ l, ∀ res, r.final_resolution = some res →
          r.direction_correct = some (if signalMatches r.signal_type res then 1 else 0) :=
        fun r hr => h r (List.mem_cons_of_mem a hr)
      rw [ih hl]
      rcases hfin : a.final_resolution with - | res
      · rfl
      · rcases hprob : a.ai_probability with - | p
        · rfl
        · have hdc := ha res hfin
          simp only [brierOutcome, hdc]
          by_cases hm : signalMatches a.signal_type res = true
          · simp [hm]
          · simp [hm]
  rw [hdata]

/-- C6 witness: the amended equality instantiated on the one-record ledger
resolved by the accuracy tracker. -/
theorem c6_amended_witness :
    brier_score [resolveRecord (mkTrackedRecord 9 sampleNoDecision 0) Resolution.no 1] =
      brier_score_match
        [resolveRecord (mkTrackedRecord 9 sampleNoDecision 0) Resolution.no 1] :=
  c6_amended [resolveRecord (mkTrackedRecord 9 sampleNoDecision 0) Resolution.no 1] (by
    intro r hr res hres
    have h := List.mem_singleton.mp hr
    subst h
    simp only [resolveRecord] at hres
    cases hres
    rfl)

/-! ## Diagnosis and improvement loop

`self_diagnosis.SelfDiagnosis` and `self_improvement.SelfImprovement`.
The agent configuration document is `scripts/../config/agent_config.json`;
its persistence (current file plus timestamped `.backup.*` copies) is a
`ConfigStore`. -/

/-- The machine-applicable fix types; `other` covers any unrecognized
string. -/
inductive FixType
  | threshold_adjustment
  | category_confidence_adjustment
  | dampening_adjustment
  | data_requirement
  | prompt_enhancement
  | other (name : String)
deriving DecidableEq, Repr

/-- The structured `fix_params` dict: absent keys are `none` (`dict.get`
semantics). -/
structure FixParams where
  parameter : Option String
  proposed_value : Option ℚ
  current_value : Option ℚ
  category : Option String
  confidence_multiplier : Option ℚ
  dampening_factor : Option ℚ
  min_news_sources : Option ℕ
  lessons : List String
deriving DecidableEq, Repr

/-- The empty dict `{}`. -/
def emptyFixParams : FixParams :=
  { parameter := none
    proposed_value := none
    current_value := none
    category := none
    confidence_multiplier := none
    dampening_factor := none
    min_news_sources := none
    lessons := [] }

/-- An improvement proposal as `diagnose` builds it in memory. -/
structure Proposal where
  diagnosis_type : String
  category_affected : String
  severity : String
  fix_type : FixType
  fix_params : FixParams
deriving DecidableEq, Repr

/-- Proposal lifecycle status. -/
inductive PStatus
  | proposed
  | applied
  | failed
deriving DecidableEq, Repr

/-- A row of the `self_improvement_log` table.  `save_proposals` persists
only `diagnosis_type`, detail, `category_affected`, `proposed_fix`,
`fix_type` and `status` — the structured `fix_params` are dropped. -/
structure SavedProposal where
  diagnosis_type : String
  category_affected : String
  fix_type : FixType
  status : PStatus
deriving DecidableEq, Repr

/-- The overall block of the self-awareness report consumed by
`diagnose`. -/
structure OverallMetrics where
  resolved : ℕ
  accuracy_pct : ℚ
  avg_edge : ℚ
deriving DecidableEq, Repr

/-- One category's block of the self-awareness report. -/
structure CategoryMetrics where
  resolved : ℕ
  accuracy_pct : ℚ
deriving DecidableEq, Repr

/-- The error-pattern feed of `error_analyzer.get_error_patterns`. -/
structure ErrorPatterns where
  overconfidence : ℕ
  insufficient_data : ℕ
  lessons_learned : List String
deriving DecidableEq, Repr

/-- `SelfDiagnosis.diagnose`: the six threshold rules, in source order. -/
def diagnose (overall : OverallMetrics) (by_category : List (String × CategoryMetrics))
    (errors : ErrorPatterns) : List Proposal :=
  (if 5 ≤ overall.resolved ∧ overall.accuracy_pct < 40 then
    [{ diagnosis_type := "low_overall_accuracy"
       category_affected := "all"
       severity := "critical"
       fix_type := FixType.threshold_adjustment
       fix_params := { emptyFixParams with
                       parameter := some "min_edge_threshold"
                       current_value := some 3
                       proposed_value := some 5 } }]
   else []) ++
  (by_category.filterMap fun cm =>
    if 3 ≤ cm.2.resolved ∧ cm.2.accuracy_pct < 30 then
      some { diagnosis_type := "category_underperformance"
             category_affected := cm.1
             severity := "high"
             fix_type := FixType.category_confidence_adjustment
             fix_params := { emptyFixParams with
                             category := some cm.1
                             confidence_multiplier := some (8/10) } }
    else none) ++
  (if 2 ≤ errors.overconfidence then
    [{ diagnosis_type := "systematic_overconfidence"
       category_affected := "all"
       severity := "high"
       fix_type := FixType.dampening_adjustment
       fix_params := { emptyFixParams with dampening_factor := some (1/10) } }]
   else []) ++
  (if overall.avg_edge < 0 then
    [{ diagnosis_type := "negative_edge"
       category_affected := "all"
       severity := "high"
       fix_type := FixType.threshold_adjustment
       fix_params := { emptyFixParams with
                       parameter := some "min_edge_threshold"
                       current_value := some 3
                       proposed_value := some 10 } }]
   else []) ++
  (if 2 ≤ errors.insufficient_data then
    [{ diagnosis_type := "insufficient_data_errors"
       category_affected := "all"
       severity := "medium"
       fix_type := FixType.data_requirement
       fix_params := { emptyFixParams with min_news_sources := some 5 } }]
   else []) ++
  (if errors.lessons_learned ≠ [] then
    [{ diagnosis_type := "lessons_from_errors"
       category_affected := "all"
       severity := "medium"
       fix_type := FixType.prompt_enhancement
       fix_params := { emptyFixParams with lessons := errors.lessons_learned.take 5 } }]
   else [])

/-- `SelfDiagnosis.save_proposals`: insert each proposal with
status = proposed; `fix_params` has no column and is not persisted. -/
def save_proposals (proposals : List Proposal) : List SavedProposal :=
  proposals.map fun p =>
    { diagnosis_type := p.diagnosis_type
      category_affected := p.category_affected
      fix_type := p.fix_type
      status := PStatus.proposed }

/-- The agent configuration document.  `confidence_multipliers` is keyed by
`Option String` because Python stores the multiplier under the key `None`
when the rebuilt `fix_params` carry no category; `extra` holds numeric keys
a dynamic `self.config[param] = value` assignment could introduce. -/
structure AgentConfigDoc where
  min_edge_threshold : ℚ
  confidence_multipliers : List (Option String × ℚ)
  probability_dampening : ℚ
  min_news_sources : ℕ
  lessons_learned : List String
  version : ℕ
  last_updated : Option String
  extra : List (String × ℚ)
deriving DecidableEq, Repr

/-- The `SelfImprovement._load_config` default document. -/
def default_config : AgentConfigDoc :=
  { min_edge_threshold := 3
    confidence_multipliers := []
    probability_dampening := 0
    min_news_sources := 3
    lessons_learned := []
    version := 1
    last_updated := none
    extra := [] }

/-- Insert-or-replace on an association list (Python dict assignment). -/
def insertKV {α β : Type} [DecidableEq α] (k : α) (v : β) :
    List (α × β) → List (α × β)
  | [] => [(k, v)]
  | (k0, v0) :: es => if k0 = k then (k, v) :: es else (k0, v0) :: insertKV k v es

/-- `self.config[param] = new_value` for the numeric parameters. -/
def setNumField (name : String) (v : ℚ) (cfg : AgentConfigDoc) : AgentConfigDoc :=
  if name = "min_edge_threshold" then { cfg with min_edge_threshold := v }
  else { cfg with extra := insertKV name v cfg.extra }

/-- `SelfImprovement.apply_threshold_adjustment`. -/
def apply_threshold_adjustment (fp : FixParams) (cfg : AgentConfigDoc) :
    Bool × AgentConfigDoc :=
  let param := fp.parameter.getD "min_edge_threshold"
  let new_value := fp.proposed_value.getD 5
  (true, setNumField param new_value cfg)

/-- `SelfImprovement.apply_category_confidence_adjustment`: stores the
multiplier under `fp.category` — which is `None` when the params dict has
no category key. -/
def apply_category_confidence_adjustment (fp : FixParams) (cfg : AgentConfigDoc) :
    Bool × AgentConfigDoc :=
  let multiplier := fp.confidence_multiplier.getD (8/10)
  (true, { cfg with
    confidence_multipliers := insertKV fp.category multiplier cfg.confidence_multipliers })

/-- `SelfImprovement.apply_probability_dampening`. -/
def apply_probability_dampening_fix (fp : FixParams) (cfg : AgentConfigDoc) :
    Bool × AgentConfigDoc :=
  (true, { cfg with probability_dampening := fp.dampening_factor.getD (1/10) })

/-- `SelfImprovement.apply_data_requirement`. -/
def apply_data_requirement (fp : FixParams) (cfg : AgentConfigDoc) :
    Bool × AgentConfigDoc :=
  (true, { cfg with min_news_sources := fp.min_news_sources.getD 5 })

/-- Append with de-duplication (`if lesson not in ...: append`). -/
def appendDedup (acc : List String) (ls : List String) : List String :=
  ls.foldl (fun acc lesson => if lesson ∈ acc then acc else acc ++ [lesson]) acc

/-- `SelfImprovement.apply_prompt_enhancement`. -/
def apply_prompt_enhancement (fp : FixParams) (cfg : AgentConfigDoc) :
    Bool × AgentConfigDoc :=
  (true, { cfg with lessons_learned := appendDedup cfg.lessons_learned fp.lessons })

/-- `SelfImprovement.apply_fix`: dispatch on `fix_type`; an unrecognized
type fails without touching the configuration. -/
def apply_fix (ft : FixType) (fp : FixParams) (cfg : AgentConfigDoc) :
    Bool × AgentConfigDoc :=
  match ft with
  | FixType.threshold_adjustment => apply_threshold_adjustment fp cfg
  | FixType.category_confidence_adjustment => apply_category_confidence_adjustment fp cfg
  | FixType.dampening_adjustment => apply_probability_dampening_fix fp cfg
  | FixType.data_requirement => apply_data_requirement fp cfg
  | FixType.prompt_enhancement => apply_prompt_enhancement fp cfg
  | FixType.other _ => (false, cfg)

/-- The fix_params rebuilt inside `apply_all_pending` (lines 185-198 of
self_improvement.py): hardcoded `proposed_value = 10` for threshold
adjustments, fresh lessons for prompt enhancements, and the empty dict for
every other fix type. -/
def rebuildFixParams (ft : FixType) (errors : ErrorPatterns) : FixParams :=
  match ft with
  | FixType.threshold_adjustment =>
    { emptyFixParams with
      parameter := some "min_edge_threshold"
      proposed_value := some 10 }
  | FixType.prompt_enhancement => { emptyFixParams with lessons := errors.lessons_learned }
  | _ => emptyFixParams

/-- The proposal-processing loop of `apply_all_pending` over the selected
`status = proposed` rows (others pass through untouched), threading the
in-memory configuration. -/
def applyAllPendingCore (errors : ErrorPatterns) :
    List SavedProposal → AgentConfigDoc → AgentConfigDoc × List SavedProposal
  | [], cfg => (cfg, [])
  | row :: rows, cfg =>
    if row.status = PStatus.proposed then
      let step := apply_fix row.fix_type (rebuildFixParams row.fix_type errors) cfg
      let row' := { row with
        status := if step.1 then PStatus.applied else PStatus.failed }
      let rest := applyAllPendingCore errors rows step.2
      (rest.1, row' :: rest.2)
    else
      let rest := applyAllPendingCore errors rows cfg
      (rest.1, row :: rest.2)

/-- The persisted configuration: the current document plus the timestamped
`.backup.*` copies (`shutil.copy` overwrites an existing file with the same
timestamp). -/
structure ConfigStore where
  current : AgentConfigDoc
  backups : List (String × AgentConfigDoc)

/-- `SelfImprovement._save_config`: stamp `last_updated`, increment
`version`, back up the previous document under the timestamp, and commit
the new document. -/
def save_config (ts : String) (cfg : AgentConfigDoc) (store : ConfigStore) : ConfigStore :=
  { current := { cfg with version := cfg.version + 1, last_updated := some ts }
    backups := insertKV ts store.current store.backups }

/-- Does the log hold any `status = proposed` row? -/
def hasPending (rows : List SavedProposal) : Bool :=
  rows.any fun row => decide (row.status = PStatus.proposed)

/-- One full `apply_all_pending` run: load the current document, process
the pending rows, then persist with backup and version bump; with no
pending rows the run returns without saving. -/
def apply_all_pending_run (rows : List SavedProposal) (errors : ErrorPatterns)
    (ts : String) (store : ConfigStore) : ConfigStore × List SavedProposal :=
  if hasPending rows then
    let step := applyAllPendingCore errors rows store.current
    (save_config ts step.1 store, step.2)
  else (store, rows)

/-! ### Association-list lemmas for the configuration maps -/

/-- Association-list lookup by decidable equality (dict access). -/
def lookupKV {α β : Type} [DecidableEq α] (k : α) : List (α × β) → Option β
  | [] => none
  | (k0, v0) :: es => if k0 = k then some v0 else lookupKV k es

/-- Looking up the inserted key finds the new value. -/
lemma lookup_insertKV_self {α β : Type} [DecidableEq α] (k : α) (v : β)
    (l : List (α × β)) : lookupKV k (insertKV k v l) = some v := by
  induction l with
  | nil => simp [insertKV, lookupKV]
  | cons kv es ih =>
    obtain ⟨k0, v0⟩ := kv
    simp only [insertKV]
    split_ifs with h
    · simp [lookupKV]
    · simp [lookupKV, h, ih]

/-- Looking up a different key is unaffected by the insertion. -/
lemma lookup_insertKV_ne {α β : Type} [DecidableEq α] {k k' : α} (v : β)
    (l : List (α × β)) (h : k' ≠ k) :
    lookupKV k' (insertKV k v l) = lookupKV k' l := by
  have h' : ¬ k = k' := fun hc => h hc.symm
  induction l with
  | nil => simp [insertKV, lookupKV, h']
  | cons kv es ih =>
    obtain ⟨k0, v0⟩ := kv
    simp only [insertKV]
    split_ifs with hk
    · subst hk
      simp [lookupKV, h']
    · by_cases hk' : k0 = k'
      · subst hk'
        simp [lookupKV]
      · simp [lookupKV, hk', ih]

/-- Inserting a fresh key appends one entry. -/
lemma length_insertKV_fresh {α β : Type} [DecidableEq α] {k : α} (v : β)
    (l : List (α × β)) (h : ∀ kv ∈ l, kv.1 ≠ k) :
    (insertKV k v l).length = l.length + 1 := by
  induction l with
  | nil => rfl
  | cons kv es ih =>
    obtain ⟨k0, v0⟩ := kv
    simp only [insertKV]
    split_ifs with hk
    · exact absurd hk (h (k0, v0) (List.mem_cons_self _ _))
    · simp only [List.length_cons]
      rw [ih (fun kv hkv => h kv (List.mem_cons_of_mem _ hkv))]

/-- Every entry of the insertion result is the new pair or an old entry. -/
lemma mem_insertKV {α β : Type} [DecidableEq α] {k : α} {v : β}
    {l : List (α × β)} {b : α × β} (hb : b ∈ insertKV k v l) :
    b = (k, v) ∨ b ∈ l := by
  induction l with
  | nil =>
    simp only [insertKV] at hb
    exact Or.inl (List.mem_singleton.mp hb)
  | cons kv es ih =>
    obtain ⟨k0, v0⟩ := kv
    simp only [insertKV] at hb
    split_ifs at hb with hk
    · rcases List.mem_cons.mp hb with hb | hb
      · exact Or.inl hb
      · exact Or.inr (List.mem_cons_of_mem _ hb)
    · rcases List.mem_cons.mp hb with hb | hb
      · exact Or.inr (by rw [hb]; exact List.mem_cons_self _ _)
      · rcases ih hb with hb | hb
        · exact Or.inl hb
        · exact Or.inr (List.mem_cons_of_mem _ hb)

/-! ### C10: category adjustments through the batch applier -/

/-- C10: applying a pending category_confidence_adjustment proposal through
the batch applier rebuilds its fix_params as the empty dict, stores the
default 0.8 multiplier under the `None` category key, leaves the multiplier
of every named category unchanged, and still marks the proposal applied. -/
theorem c10_category_adjustment_noop (store : ConfigStore) (row : SavedProposal)
    (errors : ErrorPatterns) (ts : String)
    (hft : row.fix_type = FixType.category_confidence_adjustment)
    (hst : row.status = PStatus.proposed) :
    rebuildFixParams row.fix_type errors = emptyFixParams ∧
    (lookupKV none
      (apply_all_pending_run [row] errors ts store).1.current.confidence_multipliers =
      some (8/10)) ∧
    (∀ c : String,
      lookupKV (some c)
        (apply_all_pending_run [row] errors ts store).1.current.confidence_multipliers =
      lookupKV (some c) store.current.confidence_multipliers) ∧
    (apply_all_pending_run [row] errors ts store).2 =
      [{ row with status := PStatus.applied }] := by
  have hpend : hasPending [row] = true := by
    simp [hasPending, hst]
  have hrun : apply_all_pending_run [row] errors ts store =
      (save_config ts (applyAllPendingCore errors [row] store.current).1 store,
       (applyAllPendingCore errors [row] store.current).2) := by
    simp [apply_all_pending_run, hpend]
  have hcore : applyAllPendingCore errors [row] store.current =
      ({ store.current with
          confidence_multipliers :=
            insertKV none (8/10) store.current.confidence_multipliers },
       [{ row with status := PStatus.applied }]) := by
    simp [applyAllPendingCore, hst, hft, rebuildFixParams, apply_fix,
      apply_category_confidence_adjustment, emptyFixParams]
  refine ⟨by rw [hft]; rfl, ?_, ?_, ?_⟩
  · rw [hrun, hcore]
    simp only [save_config]
    exact lookup_insertKV_self none (8/10) store.current.confidence_multipliers
  · intro c
    rw [hrun, hcore]
    simp only [save_config]
    exact lookup_insertKV_ne (8/10) store.current.confidence_multipliers
      (Option.some_ne_none c)
  · rw [hrun, hcore]

/-- The concrete store and proposal used by the C10 witness. -/
def sampleCategoryStore : ConfigStore :=
  { current := { default_config with confidence_multipliers := [(some "crypto", 1)] }
    backups := [] }

/-- A concrete pending category_confidence_adjustment proposal. -/
def sampleCategoryRow : SavedProposal :=
  { diagnosis_type := "category_underperformance"
    category_affected := "crypto"
    fix_type := FixType.category_confidence_adjustment
    status := PStatus.proposed }

/-- Error patterns with nothing recorded. -/
def errorsNone : ErrorPatterns :=
  { overconfidence := 0, insufficient_data := 0, lessons_learned := [] }

/-- C10 witness: the theorem instantiated on a concrete store holding a
"crypto" multiplier and a concrete pending proposal. -/
theorem c10_category_adjustment_noop_witness :
    rebuildFixParams sampleCategoryRow.fix_type errorsNone = emptyFixParams ∧
    (lookupKV none
      (apply_all_pending_run [sampleCategoryRow] errorsNone "t1"
        sampleCategoryStore).1.current.confidence_multipliers = some (8/10)) ∧
    (∀ c : String,
      lookupKV (some c)
        (apply_all_pending_run [sampleCategoryRow] errorsNone "t1"
          sampleCategoryStore).1.current.confidence_multipliers =
      lookupKV (some c) sampleCategoryStore.current.confidence_multipliers) ∧
    (apply_all_pending_run [sampleCategoryRow] errorsNone "t1" sampleCategoryStore).2 =
      [{ sampleCategoryRow with status := PStatus.applied }] :=
  c10_category_adjustment_noop sampleCategoryStore sampleCategoryRow errorsNone "t1" rfl rfl

/-! ### C4: the low-accuracy threshold proposal is applied as 10, not 5 -/

/-- An aggregator state that fires only the low-overall-accuracy rule:
5 resolved, 20% accuracy, positive average edge. -/
def overallBad : OverallMetrics := { resolved := 5, accuracy_pct := 20, avg_edge := 1 }

/-- The persisted store at the failing input: the default document, no
backups. -/
def store0 : ConfigStore := { current := default_config, backups := [] }

/-- C4: at the failing input the diagnosis engine emits exactly one
proposal — threshold_adjustment with `proposed_value = 5` (matching its
human-readable text "from 3% edge to 5% edge") — yet running the applier
pipeline on it persists `min_edge_threshold = 10`: `save_proposals` drops
`fix_params` (the log table has no such column) and `apply_all_pending`
rebuilds them with a hardcoded `proposed_value = 10`. -/
theorem c4_threshold_application_bug :
    ((diagnose overallBad [] errorsNone).map fun p =>
      (p.fix_type, p.fix_params.proposed_value)) =
      [(FixType.threshold_adjustment, some 5)] ∧
    (apply_all_pending_run (save_proposals (diagnose overallBad [] errorsNone))
        errorsNone "t1" store0).1.current.min_edge_threshold = 10 ∧
    ((10:ℚ) ≠ 5) := by
  have hd : diagnose overallBad [] errorsNone =
      [{ diagnosis_type := "low_overall_accuracy"
         category_affected := "all"
         severity := "critical"
         fix_type := FixType.threshold_adjustment
         fix_params := { emptyFixParams with
                         parameter := some "min_edge_threshold"
                         current_value := some 3
                         proposed_value := some 5 } }] := by
    unfold diagnose overallBad errorsNone
    norm_num
  refine ⟨by rw [hd]; rfl, ?_, by norm_num⟩
  rw [hd]
  simp [save_proposals, apply_all_pending_run, hasPending, applyAllPendingCore,
    apply_fix, rebuildFixParams, apply_threshold_adjustment, setNumField,
    save_config, emptyFixParams]

/-! ### C8: config versioning and backups across applier runs -/

/-- The inputs of one applier run: the pending log rows it sees, the error
patterns it rebuilds lessons from, and the wall-clock backup timestamp. -/
structure RunInput where
  rows : List SavedProposal
  errors : ErrorPatterns
  ts : String

/-- A fix type `apply_fix` recognizes. -/
def recognizedFix : FixType → Bool
  | FixType.other _ => false
  | _ => true

/-- N successive applier runs against the shared store. -/
def applier_runs : List RunInput → ConfigStore → ConfigStore
  | [], store => store
  | run :: runs, store =>
    applier_runs runs (apply_all_pending_run run.rows run.errors run.ts store).1

/-- A pending row makes the applier's selection nonempty. -/
lemma hasPending_of_exists (rows : List SavedProposal)
    (h : ∃ row ∈ rows, row.status = PStatus.proposed) : hasPending rows = true := by
  obtain ⟨row, hr, hs⟩ := h
  exact List.any_eq_true.mpr ⟨row, hr, by simp [hs]⟩

/-- No fix application touches the version field. -/
lemma apply_fix_version (ft : FixType) (fp : FixParams) (cfg : AgentConfigDoc) :
    (apply_fix ft fp cfg).2.version = cfg.version := by
  cases ft with
  | threshold_adjustment =>
    simp only [apply_fix, apply_threshold_adjustment, setNumField]
    split_ifs <;> rfl
  | category_confidence_adjustment => rfl
  | dampening_adjustment => rfl
  | data_requirement => rfl
  | prompt_enhancement => rfl
  | other name => rfl

/-- The whole proposal loop keeps the in-memory version unchanged. -/
lemma applyAllPendingCore_version (errors : ErrorPatterns) (rows : List SavedProposal) :
    ∀ cfg, (applyAllPendingCore errors rows cfg).1.version = cfg.version := by
  induction rows with
  | nil => intro cfg; rfl
  | cons row rows ih =>
    intro cfg
    by_cases h : row.status = PStatus.proposed
    · have hstep : (applyAllPendingCore errors (row :: rows) cfg).1 =
          (applyAllPendingCore errors rows
            (apply_fix row.fix_type (rebuildFixParams row.fix_type errors) cfg).2).1 := by
        simp [applyAllPendingCore, h]
      rw [hstep, ih]
      exact apply_fix_version _ _ _
    · have hstep : (applyAllPendingCore errors (row :: rows) cfg).1 =
          (applyAllPendingCore errors rows cfg).1 := by
        simp [applyAllPendingCore, h]
      rw [hstep]
      exact ih cfg

/-- C8: after N applier runs from an existing persisted configuration with
no prior backups, where each run has at least one pending proposal of a
recognized fix type (so it applies at least one) and the runs carry
pairwise-distinct backup timestamps, the persisted version has grown by
exactly N and exactly N timestamped backup documents exist. -/
theorem c8_config_versioning (runs : List RunInput) (store0 : ConfigStore)
    (hpend : ∀ run ∈ runs, ∃ row ∈ run.rows, row.status = PStatus.proposed ∧
      recognizedFix row.fix_type = true)
    (hts : (runs.map RunInput.ts).Nodup)
    (hfresh : ∀ run ∈ runs, ∀ b ∈ store0.backups, run.ts ≠ b.1) :
    (applier_runs runs store0).current.version = store0.current.version + runs.length ∧
    (applier_runs runs store0).backups.length = store0.backups.length + runs.length := by
  induction runs generalizing store0 with
  | nil => simp [applier_runs]
  | cons run runs ih =>
    obtain ⟨row, hrow, hstat, -⟩ := hpend run (List.mem_cons_self _ _)
    have hpd : hasPending run.rows = true :=
      hasPending_of_exists _ ⟨row, hrow, hstat⟩
    have hstep : (apply_all_pending_run run.rows run.errors run.ts store0).1 =
        save_config run.ts (applyAllPendingCore run.errors run.rows store0.current).1
          store0 := by
      simp [apply_all_pending_run, hpd]
    have hmap : List.map RunInput.ts (run :: runs) =
        run.ts :: List.map RunInput.ts runs := rfl
    have hnodup := List.nodup_cons.mp (hmap ▸ hts)
    have hihpend : ∀ r ∈ runs, ∃ row ∈ r.rows, row.status = PStatus.proposed ∧
        recognizedFix row.fix_type = true :=
      fun r hr => hpend r (List.mem_cons_of_mem _ hr)
    have hihfresh : ∀ r ∈ runs,
        ∀ b ∈ (apply_all_pending_run run.rows run.errors run.ts store0).1.backups,
          r.ts ≠ b.1 := by
      intro r hr b hb
      rw [hstep] at hb
      simp only [save_config] at hb
      rcases mem_insertKV hb with hb | hb
      · rw [hb]
        show r.ts ≠ run.ts
        intro hc
        exact hnodup.1 (hc ▸ List.mem_map_of_mem RunInput.ts hr)
      · exact hfresh r (List.mem_cons_of_mem _ hr) b hb
    obtain ⟨ihv, ihb⟩ := ih
      ((apply_all_pending_run run.rows run.errors run.ts store0).1)
      hihpend hnodup.2 hihfresh
    constructor
    · simp only [applier_runs]
      rw [ihv, hstep]
      simp only [save_config]
      rw [applyAllPendingCore_version]
      simp only [List.length_cons]
      omega
    · simp only [applier_runs]
      rw [ihb, hstep]
      simp only [save_config]
      rw [length_insertKV_fresh store0.current store0.backups
        (fun kv hkv hc => hfresh run (List.mem_cons_self _ _) kv hkv hc.symm)]
      simp only [List.length_cons]
      omega

/-- A recognized pending threshold proposal for the C8 witness. -/
def sampleThresholdRow : SavedProposal :=
  { diagnosis_type := "low_overall_accuracy"
    category_affected := "all"
    fix_type := FixType.threshold_adjustment
    status := PStatus.proposed }

/-- C8 witness: two concrete runs with distinct timestamps bump the version
by 2 and leave exactly 2 backups. -/
theorem c8_config_versioning_witness :
    (applier_runs
      [{ rows := [sampleThresholdRow], errors := errorsNone, ts := "t1" },
       { rows := [sampleThresholdRow], errors := errorsNone, ts := "t2" }]
      store0).current.version = store0.current.version + 2 ∧
    (applier_runs
      [{ rows := [sampleThresholdRow], errors := errorsNone, ts := "t1" },
       { rows := [sampleThresholdRow], errors := errorsNone, ts := "t2" }]
      store0).backups.length = store0.backups.length + 2 :=
  c8_config_versioning
    [{ rows := [sampleThresholdRow], errors := errorsNone, ts := "t1" },
     { rows := [sampleThresholdRow], errors := errorsNone, ts := "t2" }]
    store0
    (by decide)
    (by decide)
    (by intro run hrun b hb; cases hb)

end OracleSentinel
